import Mathlib

/-!
Verification of the Document Section Segmentation & Style Feature Extraction
pipeline of `src/analyzer/journal_style_analyzer.py` (class `JournalStyleAnalyzer`).

The Python source is shallowly embedded: text is `List Char` (Python `str`
indexing/length is by code point, which coincides with `List Char` length),
Python regular expressions are encoded as an explicit backtracking matcher
(`RE`/`mrun`) with Python's leftmost / alternation-priority / greedy-laziness
semantics, Python dicts of heterogeneous values are association lists over an
inductive value type `PyVal` (insertion-ordered, as Python dicts are), Python
floats are modelled as rationals, and fallible code (the loader raising on an
unsupported file extension) returns `Except`.  External collaborators that the
spec declares out of scope (the spaCy tagger `self.nlp`, the NLTK stop-word
corpus, pdfplumber, the wall clock) are passed in as parameters: the tagger as
a function `String → Except String SpacyDoc` (it may fail, which is what the
chunk-retry logic reacts to), the stop words as a predicate, the pdfplumber
output as the stored text of a `PaperPath`, and `analysis_date` as `""`.

Python whitespace (`str.strip`, `\s`, `str.split()`) is modelled for the ASCII
whitespace characters (space, tab, newline, carriage return, form feed,
vertical tab); the analyzer only ever manufactures these.
-/

/-! ### Python string primitives on `List Char` -/

/-- ASCII fragment of Python's whitespace (`str.isspace`, regex `\s`). -/
def isPySpace (c : Char) : Bool :=
  c = ' ' || c = '\t' || c = '\n' || c = '\r' || c = '\x0b' || c = '\x0c'

/-- Python `\w`: ASCII letters, digits, underscore; non-ASCII code points are
treated as word characters (the source only places `\b` next to ASCII letters
or CJK ideographs, both `\w` in Python). -/
def isPyWord (c : Char) : Bool :=
  c.isAlpha || c.isDigit || c = '_' || c.val ≥ 128

/-- Lowercase a character (`str.lower`, ASCII). -/
def lowerC (c : Char) : Char := c.toLower

/-- Lowercase a text (`str.lower`). -/
def lowerCL (s : List Char) : List Char := s.map lowerC

/-- Right part of Python `str.strip()`: drop trailing whitespace. -/
def pyStripRight (s : List Char) : List Char :=
  ((s.reverse).dropWhile isPySpace).reverse

/-- Python `str.strip()`: drop leading and trailing whitespace. -/
def pyStrip (s : List Char) : List Char :=
  (pyStripRight s).dropWhile isPySpace

/-- The paragraph separator `"\n\n"` used throughout the analyzer. -/
def parSep : List Char := ['\n', '\n']

/-- Python `text.split("\n\n")`: split on each non-overlapping occurrence of
the two-character separator, keeping empty pieces, scanning left to right. -/
def pySplitPar : List Char → List (List Char)
  | [] => [[]]
  | '\n' :: '\n' :: rest => [] :: pySplitPar rest
  | c :: rest =>
    match pySplitPar rest with
    | [] => [[c]]
    | h :: t => (c :: h) :: t

/-- Python `text.split("\n")` (single-character separator, keeps empties). -/
def pySplitNl : List Char → List (List Char)
  | [] => [[]]
  | '\n' :: rest => [] :: pySplitNl rest
  | c :: rest =>
    match pySplitNl rest with
    | [] => [[c]]
    | h :: t => (c :: h) :: t

/-- Join pieces re-inserting the paragraph separator (`"\n\n".join`). -/
def joinPar : List (List Char) → List Char
  | [] => []
  | [x] => x
  | x :: y :: t => x ++ parSep ++ joinPar (y :: t)

/-- `pat` is a prefix of `s` (executable). -/
def startsWithCL (pat s : List Char) : Bool :=
  match pat, s with
  | [], _ => true
  | _ :: _, [] => false
  | p :: ps, c :: cs => p = c && startsWithCL ps cs

/-- `pat` occurs somewhere in `s` as a contiguous run (executable). -/
def occursIn (pat : List Char) : List Char → Bool
  | [] => startsWithCL pat []
  | c :: rest => startsWithCL pat (c :: rest) || occursIn pat rest

/-- Python `str.split()` with no argument: split on whitespace runs, no
empty pieces.  Fueled; `fuel = s.length` always suffices. -/
def pySplitWsAux : Nat → List Char → List (List Char)
  | 0, _ => []
  | _ + 1, [] => []
  | fuel + 1, c :: rest =>
    if isPySpace c then pySplitWsAux fuel rest
    else
      let w := (c :: rest).takeWhile (fun x => !isPySpace x)
      w :: pySplitWsAux fuel ((c :: rest).dropWhile (fun x => !isPySpace x))

/-- Python `str.split()` with no argument. -/
def pySplitWs (s : List Char) : List (List Char) := pySplitWsAux s.length s

/-- Python `str.count(sub)` for a non-empty `sub`: non-overlapping
occurrences, scanning left to right.  Fueled; `fuel = s.length` suffices. -/
def pyCountAux (sub : List Char) : Nat → List Char → Nat
  | 0, _ => 0
  | _ + 1, [] => 0
  | fuel + 1, c :: rest =>
    if startsWithCL sub (c :: rest) then
      1 + pyCountAux sub fuel ((c :: rest).drop sub.length)
    else pyCountAux sub fuel rest

/-- Python `str.count(sub)` (the analyzer only calls it with non-empty `sub`). -/
def pyCount (sub s : List Char) : Nat := pyCountAux sub s.length s

/-- Index of the first occurrence of `pat` in `s` (`re.search(re.escape(pat))`
on a literal, used by `extract_text_from_pdf` to re-locate a match). -/
def findSub (pat : List Char) : List Char → Option Nat
  | [] => if startsWithCL pat [] then some 0 else none
  | c :: rest =>
    if startsWithCL pat (c :: rest) then some 0
    else (findSub pat rest).map (· + 1)

/-- Python slice `s[a:b]` for `0 ≤ a ≤ b`. -/
def sliceCL (s : List Char) (a b : Nat) : List Char := (s.drop a).take (b - a)

/-! ### Insertion-ordered dictionaries (Python `dict`) -/

/-- Lookup (`d[k]` / `d.get(k)`). -/
def dget {α : Type} : List (String × α) → String → Option α
  | [], _ => none
  | (k', v) :: rest, k => if k' = k then some v else dget rest k

/-- Assignment `d[k] = v`: replace in place if the key exists (Python dicts
keep the key's original position), otherwise append. -/
def dset {α : Type} : List (String × α) → String → α → List (String × α)
  | [], k, v => [(k, v)]
  | (k', v') :: rest, k, v =>
    if k' = k then (k, v) :: rest else (k', v') :: dset rest k v

/-! ### A backtracking matcher for the Python regexes used by the analyzer

Constructs needed by the source patterns: literals, character classes, `.`,
concatenation, alternation (left-priority), greedy `*` `+` `?`, lazy `*` `+`,
`^` `$` (with and without `re.MULTILINE`), `(?=...)`, `(?!...)`, `\b`, and a
single capture group.  The matcher follows Python's backtracking order:
alternation tries the left branch first, greedy repetition tries longer
first, lazy repetition shorter first, so the first reported match is the one
Python reports.  `re.IGNORECASE` is baked into the encoded literals. -/

/-- Compilation flags of the Python pattern (`re.MULTILINE`, `re.DOTALL`). -/
structure ReFlags where
  multiline : Bool
  dotall : Bool

inductive RE : Type where
  | eps : RE
  | cls (p : Char → Bool) : RE
  | dot : RE
  | seq (a b : RE) : RE
  | alt (a b : RE) : RE
  | star (a : RE) : RE
  | lazystar (a : RE) : RE
  | opt (a : RE) : RE
  | bol : RE
  | eol : RE
  | look (a : RE) : RE
  | nlook (a : RE) : RE
  | grp (a : RE) : RE
  | wordb : RE

/-- Matcher state: the character just before the current position (for `^`,
`\b`) and the rest of the input. -/
abbrev MSt : Type := Option Char × List Char

/-- Content captured by the (single) group, if the group has run. -/
abbrev GCap : Type := Option (List Char)

abbrev MK : Type := MSt → GCap → Option (MSt × GCap)

/-- Greedy repetition: try one more iteration of the body first, fall back to
the continuation; a body iteration that consumes nothing ends the loop (the
source patterns never repeat a nullable body). -/
def starLoopG (am : MSt → GCap → MK → Option (MSt × GCap)) :
    Nat → MSt → GCap → MK → Option (MSt × GCap)
  | 0, st, g, k => k st g
  | fuel + 1, st, g, k =>
    (am st g (fun st' g' =>
      if st'.2.length < st.2.length then starLoopG am fuel st' g' k
      else k st' g')) <|> k st g

/-- Lazy repetition: try the continuation first, then one more body iteration. -/
def starLoopL (am : MSt → GCap → MK → Option (MSt × GCap)) :
    Nat → MSt → GCap → MK → Option (MSt × GCap)
  | 0, st, g, k => k st g
  | fuel + 1, st, g, k =>
    k st g <|> am st g (fun st' g' =>
      if st'.2.length < st.2.length then starLoopL am fuel st' g' k
      else none)

/-- Run regex `r` from state `st` with continuation `k`, in Python's
backtracking order. -/
def mrun (fl : ReFlags) : RE → MSt → GCap → MK → Option (MSt × GCap)
  | .eps, st, g, k => k st g
  | .cls p, st, g, k =>
    match st.2 with
    | [] => none
    | c :: rest => if p c then k (some c, rest) g else none
  | .dot, st, g, k =>
    match st.2 with
    | [] => none
    | c :: rest => if fl.dotall || c ≠ '\n' then k (some c, rest) g else none
  | .seq a b, st, g, k => mrun fl a st g (fun st' g' => mrun fl b st' g' k)
  | .alt a b, st, g, k => mrun fl a st g k <|> mrun fl b st g k
  | .star a, st, g, k => starLoopG (mrun fl a) (st.2.length + 1) st g k
  | .lazystar a, st, g, k => starLoopL (mrun fl a) (st.2.length + 1) st g k
  | .opt a, st, g, k => mrun fl a st g k <|> k st g
  | .bol, st, g, k =>
    match st.1 with
    | none => k st g
    | some c => if fl.multiline && c = '\n' then k st g else none
  | .eol, st, g, k =>
    match st.2 with
    | [] => k st g
    | c :: rest =>
      if fl.multiline then (if c = '\n' then k st g else none)
      else (if c = '\n' && rest = [] then k st g else none)
  | .look a, st, g, k =>
    match mrun fl a st g (fun st' g' => some (st', g')) with
    | some (_, g') => k st g'
    | none => none
  | .nlook a, st, g, k =>
    match mrun fl a st g (fun st' g' => some (st', g')) with
    | some _ => none
    | none => k st g
  | .grp a, st, g, k =>
    mrun fl a st g (fun st' _ =>
      k st' (some (st.2.take (st.2.length - st'.2.length))))
  | .wordb, st, g, k =>
    let before := match st.1 with | none => false | some c => isPyWord c
    let after := match st.2 with | [] => false | c :: _ => isPyWord c
    if before ≠ after then k st g else none

/-- First match at or after the current state; `pos` is the absolute offset of
the state.  Returns `(start, length, captured group)`. -/
def searchAux (fl : ReFlags) (r : RE) :
    Option Char → List Char → Nat → Option (Nat × Nat × GCap)
  | prev, rest, pos =>
    match mrun fl r (prev, rest) none (fun st g => some (st, g)) with
    | some (st, g) => some (pos, rest.length - st.2.length, g)
    | none =>
      match rest with
      | [] => none
      | c :: rest' => searchAux fl r (some c) rest' (pos + 1)

/-- Python `re.search`: leftmost match, `(start, length, group)`. -/
def reSearch (fl : ReFlags) (r : RE) (s : List Char) : Option (Nat × Nat × GCap) :=
  searchAux fl r none s 0

/-- The character before position `pos` of `s`. -/
def prevAt (s : List Char) (pos : Nat) : Option Char :=
  if pos = 0 then none else s.get? (pos - 1)

/-- `re.search` starting the scan at `pos`. -/
def reSearchFrom (fl : ReFlags) (r : RE) (s : List Char) (pos : Nat) :
    Option (Nat × Nat × GCap) :=
  searchAux fl r (prevAt s pos) (s.drop pos) pos

/-- Python `re.finditer`: non-overlapping matches scanning left to right,
resuming after each match's end (one past it for an empty match). -/
def finditerAux (fl : ReFlags) (r : RE) (s : List Char) :
    Nat → Nat → List (Nat × Nat × GCap)
  | 0, _ => []
  | fuel + 1, pos =>
    if pos > s.length then []
    else
      match reSearchFrom fl r s pos with
      | none => []
      | some (st, len, g) =>
        (st, len, g) :: finditerAux fl r s fuel (st + (if len = 0 then 1 else len))

def reFinditer (fl : ReFlags) (r : RE) (s : List Char) : List (Nat × Nat × GCap) :=
  finditerAux fl r s (s.length + 2) 0

/-- Python `len(re.findall(r, s))` for a pattern without capture groups. -/
def reFindallCount (fl : ReFlags) (r : RE) (s : List Char) : Nat :=
  (reFinditer fl r s).length

/-- Python `re.match` (anchored at position 0): does `r` match a prefix? -/
def reMatchB (fl : ReFlags) (r : RE) (s : List Char) : Bool :=
  (mrun fl r (none, s) none (fun st g => some (st, g))).isSome

/-! #### Combinators mirroring the written patterns -/

/-- Concatenation of a pattern list. -/
def rcat (l : List RE) : RE := l.foldr RE.seq RE.eps

/-- Alternation `(?:a|b|...)`, left priority. -/
def ralt : List RE → RE
  | [] => RE.cls (fun _ => false)
  | [x] => x
  | x :: y :: t => RE.alt x (ralt (y :: t))

/-- Case-sensitive literal character. -/
def chrR (c : Char) : RE := RE.cls (fun x => x = c)

/-- Case-insensitive literal character (`re.IGNORECASE`). -/
def ichrR (c : Char) : RE := RE.cls (fun x => lowerC x = lowerC c)

/-- Case-sensitive literal string. -/
def cstr (s : String) : RE := rcat (s.data.map chrR)

/-- Case-insensitive literal string. -/
def istr (s : String) : RE := rcat (s.data.map ichrR)

/-- `\s` -/
def wsR : RE := RE.cls isPySpace

/-- `\d` -/
def digitR : RE := RE.cls Char.isDigit

/-- greedy `+` -/
def plusR (a : RE) : RE := RE.seq a (RE.star a)

/-- lazy `+?` -/
def lazyplusR (a : RE) : RE := RE.seq a (RE.lazystar a)

/-! ### `SECTION_DEFINITIONS` (source lines 360–479)

Each entry encodes one Python regex verbatim; compilation flags there are
`re.IGNORECASE | re.MULTILINE`.  `[\s:]`, `[\s.]` are the literal classes,
`(?:\d+\.?\s*)?` is `optNumDot`, and each `(?:^|\n)` prefix is `startAnchor`. -/

/-- `(?:^|\n)` -/
def startAnchor : RE := RE.alt RE.bol (chrR '\n')

/-- `(?:\d+\.?\s*)?` -/
def optNumDot : RE := RE.opt (rcat [plusR digitR, RE.opt (chrR '.'), RE.star wsR])

/-- `[\s:]*` -/
def wsColonStar : RE := RE.star (RE.cls (fun c => isPySpace c || c = ':'))

/-- `[\s.]*` -/
def wsDotStar : RE := RE.star (RE.cls (fun c => isPySpace c || c = '.'))

/-- Configuration of one section kind: start patterns and end patterns. -/
structure SectionConfig where
  patterns : List RE
  end_patterns : List RE

/-- The analyzer's `SECTION_DEFINITIONS` dict, in insertion order. -/
def SECTION_DEFINITIONS : List (String × SectionConfig) :=
  [ ("abstract",
     { patterns :=
         [ rcat [startAnchor, RE.star wsR, ralt [istr "abstract", istr "summary"],
                 wsColonStar, RE.star (chrR '\n')],
           rcat [RE.bol, RE.star wsR, RE.opt (rcat [chrR '1', chrR '.']), RE.star wsR,
                 ralt [istr "abstract", istr "summary"], wsDotStar, RE.eol] ],
       end_patterns :=
         [ rcat [startAnchor, RE.star wsR, optNumDot,
                 ralt [istr "introduction",
                       rcat [chrR '1', RE.opt (chrR '.'), RE.star wsR,
                             ralt [istr "introduction", istr "background"]]]],
           rcat [startAnchor, RE.star wsR, istr "keywords", wsColonStar] ] }),
    ("introduction",
     { patterns :=
         [ rcat [startAnchor, RE.star wsR, optNumDot,
                 ralt [istr "introduction", istr "background"], wsColonStar,
                 RE.star (chrR '\n')],
           rcat [startAnchor, RE.star wsR, chrR '1', RE.opt (chrR '.'), RE.star wsR,
                 ralt [istr "introduction", istr "background"], wsDotStar, RE.eol] ],
       end_patterns :=
         [ rcat [startAnchor, RE.star wsR, optNumDot,
                 ralt [istr "methods",
                       rcat [istr "materials", RE.star wsR,
                             RE.opt (rcat [istr "and", RE.star wsR]),
                             istr "method", RE.opt (ichrR 's')],
                       istr "methodology"]],
           rcat [startAnchor, RE.star wsR, chrR '2', RE.opt (chrR '.'), RE.star wsR,
                 ralt [istr "methods", istr "materials", istr "methodology"]],
           rcat [startAnchor, RE.star wsR, optNumDot, istr "study", RE.star wsR,
                 istr "area"] ] }),
    ("materials",
     { patterns :=
         [ rcat [startAnchor, RE.star wsR, optNumDot,
                 ralt [istr "materials",
                       rcat [istr "materials", RE.star wsR, istr "and", RE.star wsR,
                             istr "methods"],
                       istr "methods", istr "methodology"], wsColonStar,
                 RE.star (chrR '\n')],
           rcat [startAnchor, RE.star wsR, chrR '2', RE.opt (chrR '.'), RE.star wsR,
                 ralt [istr "materials", istr "methods", istr "methodology"],
                 wsDotStar, RE.eol] ],
       end_patterns :=
         [ rcat [startAnchor, RE.star wsR, optNumDot,
                 ralt [istr "results", istr "findings", istr "outcome"]],
           rcat [startAnchor, RE.star wsR, chrR '3', RE.opt (chrR '.'), RE.star wsR,
                 ralt [istr "results", istr "findings"]],
           rcat [startAnchor, RE.star wsR, optNumDot, istr "data", RE.star wsR,
                 istr "analysis"] ] }),
    ("methods",
     { patterns :=
         [ rcat [startAnchor, RE.star wsR, optNumDot,
                 ralt [istr "methods", istr "methodology",
                       rcat [istr "experimental", RE.star wsR, istr "design"],
                       istr "procedures"], wsColonStar, RE.star (chrR '\n')],
           rcat [startAnchor, RE.star wsR, chrR '2', RE.opt (chrR '.'), RE.star wsR,
                 ralt [istr "methods", istr "methodology", istr "procedures"],
                 wsDotStar, RE.eol] ],
       end_patterns :=
         [ rcat [startAnchor, RE.star wsR, optNumDot,
                 ralt [istr "results", istr "findings", istr "outcome"]],
           rcat [startAnchor, RE.star wsR, chrR '3', RE.opt (chrR '.'), RE.star wsR,
                 ralt [istr "results", istr "findings"]],
           rcat [startAnchor, RE.star wsR, optNumDot, istr "data", RE.star wsR,
                 istr "analysis"] ] }),
    ("results",
     { patterns :=
         [ rcat [startAnchor, RE.star wsR, optNumDot,
                 ralt [istr "results", istr "findings", istr "outcome",
                       istr "observations"], wsColonStar, RE.star (chrR '\n')],
           rcat [startAnchor, RE.star wsR, chrR '3', RE.opt (chrR '.'), RE.star wsR,
                 ralt [istr "results", istr "findings", istr "observations"],
                 wsDotStar, RE.eol] ],
       end_patterns :=
         [ rcat [startAnchor, RE.star wsR, optNumDot,
                 ralt [istr "discussion",
                       rcat [istr "interpretation", RE.opt (ichrR 's')]]],
           rcat [startAnchor, RE.star wsR, chrR '4', RE.opt (chrR '.'), RE.star wsR,
                 ralt [istr "discussion",
                       rcat [istr "interpretation", RE.opt (ichrR 's')]]],
           rcat [startAnchor, RE.star wsR, optNumDot, istr "commentary"] ] }),
    ("discussion",
     { patterns :=
         [ rcat [startAnchor, RE.star wsR, optNumDot,
                 ralt [istr "discussion",
                       rcat [istr "interpretation", RE.opt (ichrR 's')],
                       rcat [istr "comment", RE.opt (ichrR 's')]], wsColonStar,
                 RE.star (chrR '\n')],
           rcat [startAnchor, RE.star wsR, chrR '4', RE.opt (chrR '.'), RE.star wsR,
                 ralt [istr "discussion",
                       rcat [istr "interpretation", RE.opt (ichrR 's')]],
                 wsDotStar, RE.eol] ],
       end_patterns :=
         [ rcat [startAnchor, RE.star wsR, optNumDot,
                 ralt [istr "conclusion", istr "conclusions", istr "summary"]],
           rcat [startAnchor, RE.star wsR, chrR '5', RE.opt (chrR '.'), RE.star wsR,
                 ralt [istr "conclusion", istr "conclusions", istr "summary"]],
           rcat [startAnchor, RE.star wsR, optNumDot,
                 ralt [rcat [istr "final", RE.star wsR, istr "remarks"],
                       rcat [istr "final", RE.star wsR, istr "comments"]]] ] }),
    ("conclusion",
     { patterns :=
         [ rcat [startAnchor, RE.star wsR, optNumDot,
                 ralt [istr "conclusion", istr "conclusions", istr "summary",
                       rcat [istr "concluding", RE.star wsR, istr "remarks"]],
                 wsColonStar, RE.star (chrR '\n')],
           rcat [startAnchor, RE.star wsR, chrR '5', RE.opt (chrR '.'), RE.star wsR,
                 ralt [istr "conclusion", istr "conclusions", istr "summary"],
                 wsDotStar, RE.eol] ],
       end_patterns :=
         [ rcat [startAnchor, RE.star wsR, optNumDot,
                 ralt [rcat [istr "reference", RE.opt (ichrR 's')],
                       istr "bibliography", istr "acknowledgements"]],
           rcat [startAnchor, RE.star wsR,
                 RE.opt (rcat [chrR '[', plusR digitR, chrR ']', RE.star wsR]),
                 istr "reference", RE.opt (ichrR 's')],
           rcat [startAnchor, RE.star wsR, istr "acknowledgement", RE.opt (ichrR 's')],
           rcat [startAnchor, RE.star wsR, istr "appendix"],
           rcat [startAnchor, RE.star wsR, istr "supplementary"] ] }),
    ("acknowledgements",
     { patterns :=
         [ rcat [startAnchor, RE.star wsR,
                 ralt [rcat [istr "acknowledgement", RE.opt (ichrR 's')],
                       rcat [istr "acknowledgment", RE.opt (ichrR 's')],
                       rcat [istr "thank", RE.opt (ichrR 's')]], wsColonStar,
                 RE.star (chrR '\n')],
           rcat [startAnchor, RE.star wsR, istr "acknowledgement", RE.opt (ichrR 's'),
                 wsDotStar, RE.eol] ],
       end_patterns :=
         [ rcat [startAnchor, RE.star wsR, optNumDot,
                 ralt [rcat [istr "reference", RE.opt (ichrR 's')],
                       istr "bibliography"]],
           rcat [startAnchor, RE.star wsR, istr "appendix"],
           rcat [startAnchor, RE.star wsR, istr "supplementary"] ] }),
    ("references",
     { patterns :=
         [ rcat [startAnchor, RE.star wsR, chrR '[', plusR digitR, chrR ']',
                 RE.star wsR, ralt [rcat [istr "reference", RE.opt (ichrR 's')],
                                    istr "bibliography"], wsColonStar],
           rcat [startAnchor, RE.star wsR,
                 ralt [rcat [istr "reference", RE.opt (ichrR 's')],
                       istr "bibliography",
                       rcat [istr "reference", RE.star wsR, istr "list"]],
                 wsColonStar],
           rcat [startAnchor, RE.star wsR, istr "reference", RE.opt (ichrR 's'),
                 wsDotStar, RE.look (RE.alt (chrR '\n') RE.eol)],
           rcat [startAnchor, RE.star wsR, istr "参考文献", wsColonStar] ],
       end_patterns :=
         [ rcat [startAnchor, RE.star wsR, istr "appendix"],
           rcat [startAnchor, RE.star wsR, istr "supplementary"],
           rcat [startAnchor, RE.star wsR, istr "acknowledgement", RE.opt (ichrR 's')],
           rcat [startAnchor, RE.star wsR, istr "作者信息"],
           rcat [startAnchor, RE.star wsR, istr "author", RE.star wsR,
                 istr "information"] ] }),
    ("appendix",
     { patterns :=
         [ rcat [startAnchor, RE.star wsR,
                 ralt [istr "appendix", istr "appendices",
                       rcat [istr "supplementary", RE.star wsR,
                             ralt [istr "material", istr "information",
                                   rcat [istr "file", RE.opt (ichrR 's')]]]],
                 wsColonStar, RE.star (chrR '\n')],
           rcat [startAnchor, RE.star wsR, istr "appendix", wsDotStar, RE.eol],
           rcat [startAnchor, RE.star wsR, istr "supplementary", wsDotStar, RE.eol] ],
       end_patterns :=
         [ rcat [startAnchor, RE.star wsR,
                 ralt [istr "appendix", istr "appendices", istr "supplementary"]] ] })
  ]

/-- Flags of `extract_sections`: `re.IGNORECASE | re.MULTILINE`. -/
def flagsIM : ReFlags := { multiline := true, dotall := false }

/-! ### `extract_sections` (source lines 481–546) -/

/-- One collected triple `(match.start(), section_name, match.group(0))`. -/
abbrev SectStart : Type := Nat × String × List Char

/-- The collection loop: for each section kind, for each start pattern, every
`re.finditer` match contributes a `(start, kind, header)` triple. -/
def sectionStartsRaw (text : List Char) : List SectStart :=
  SECTION_DEFINITIONS.foldl (fun acc nc =>
    nc.2.patterns.foldl (fun acc2 pat =>
      acc2 ++ (reFinditer flagsIM pat text).map
        (fun m => (m.1, nc.1, sliceCL text m.1 (m.1 + m.2.1)))) acc) []

/-- Stable insertion by offset: an element goes after all elements with an
offset `≤` its own, so equal offsets keep their collection order, exactly as
Python's stable `list.sort(key=lambda x: x[0])`. -/
def insertByOffset (x : SectStart) : List SectStart → List SectStart
  | [] => [x]
  | y :: ys => if y.1 ≤ x.1 then y :: insertByOffset x ys else x :: y :: ys

def sortStarts (l : List SectStart) : List SectStart :=
  l.foldl (fun acc x => insertByOffset x acc) []

/-- Collapse adjacent matches of the same kind closer than 50 characters,
keeping the earliest (source lines 509–519). -/
def mergeStarts (l : List SectStart) : List SectStart :=
  l.foldl (fun acc x =>
    match acc.getLast? with
    | some lastE =>
      if lastE.2.1 = x.2.1 && x.1 - lastE.1 < 50 then acc else acc ++ [x]
    | none => acc ++ [x]) []

def mergedStarts (text : List Char) : List SectStart :=
  mergeStarts (sortStarts (sectionStartsRaw text))

/-- End-pattern trimming is done with `re.IGNORECASE` only (no `MULTILINE`),
source line 535. -/
def flagsI : ReFlags := { multiline := false, dotall := false }

/-- First pattern in the list that matches anywhere in `s`; its match start
(the `for end_pattern ... break` loop). -/
def firstSearchStart (fl : ReFlags) : List RE → List Char → Option Nat
  | [], _ => none
  | p :: rest, s =>
    match reSearch fl p s with
    | some m => some m.1
    | none => firstSearchStart fl rest s

/-- The per-start extraction loop of `extract_sections`: the slice runs from
this start to the next later start (or end of text), is trimmed at the first
end-pattern match, stripped, and kept only when longer than 50 characters. -/
def extractLoop (text : List Char) :
    List SectStart → List (String × List Char) → List (String × List Char)
  | [], d => d
  | (start, name, _) :: rest, d =>
    let cfg := (dget SECTION_DEFINITIONS name).getD ⟨[], []⟩
    let end0 :=
      match rest.find? (fun e => decide (start < e.1)) with
      | some e => e.1
      | none => text.length
    let end1 :=
      match firstSearchStart flagsI cfg.end_patterns (sliceCL text start end0) with
      | some ms => start + ms
      | none => end0
    let content := pyStrip (sliceCL text start end1)
    let d' := if content ≠ [] ∧ 50 < content.length then dset d name content else d
    extractLoop text rest d'

/-- `JournalStyleAnalyzer.extract_sections`. -/
def extract_sections (text : List Char) : List (String × List Char) :=
  extractLoop text (mergedStarts text) []

/-! ### `_chunk_text_by_paragraphs` (source lines 569–600)

The same paragraph-packing loop is written out twice in the source (in
`_chunk_text_by_paragraphs` and inline in `analyze_text`, lines 1395–1411,
with identical text); `chunkLoop` embeds that shared loop body. -/

/-- The packing loop: `current_chunk` accumulates paragraphs (each with the
re-appended `"\n\n"`); when the next paragraph would push the length to
`max_chars` or beyond, the stripped current chunk is emitted (if non-empty)
and the paragraph starts a fresh chunk. -/
def chunkLoop (maxChars : Nat) :
    List (List Char) → List Char → List (List Char) → List (List Char)
  | [], cur, acc => if pyStrip cur ≠ [] then acc ++ [pyStrip cur] else acc
  | p :: ps, cur, acc =>
    if (cur ++ p).length < maxChars then
      chunkLoop maxChars ps (cur ++ p ++ parSep) acc
    else
      chunkLoop maxChars ps (p ++ parSep)
        (if pyStrip cur ≠ [] then acc ++ [pyStrip cur] else acc)

/-- `JournalStyleAnalyzer._chunk_text_by_paragraphs`. -/
def _chunk_text_by_paragraphs (text : List Char) (max_chars : Nat) : List (List Char) :=
  if text.length ≤ max_chars then [text]
  else chunkLoop max_chars (pySplitPar text) [] []

/-! ### `_determine_reference_format` (source lines 967–1010)

The four structural signatures are compiled without flags (case-sensitive,
no MULTILINE/DOTALL) and tested with `re.match` against each stripped line. -/

def flagsNone : ReFlags := { multiline := false, dotall := false }

/-- `[A-Z]` -/
def upperR : RE := RE.cls (fun c => 'A' ≤ c && c ≤ 'Z')

/-- `[a-z]` -/
def lowerR : RE := RE.cls (fun c => 'a' ≤ c && c ≤ 'z')

/-- `[a-zA-Z'-]` -/
def nameR : RE := RE.cls (fun c => c.isAlpha || c = '\'' || c = '-')

/-- `[A-Za-z0-9]` -/
def alnumR : RE := RE.cls (fun c => c.isAlpha || c.isDigit)

/-- `\d{4}` -/
def digit4 : RE := rcat [digitR, digitR, digitR, digitR]

/-- `^[A-Z][a-zA-Z'-]+.*\.\s+[A-Z][a-zA-Z0-9].*\.\s+\d{4}\.` -/
def nature_pattern : RE :=
  rcat [RE.bol, upperR, plusR nameR, RE.star RE.dot, chrR '.', plusR wsR, upperR,
        alnumR, RE.star RE.dot, chrR '.', plusR wsR, digit4, chrR '.']

/-- `^[A-Z][a-zA-Z'-]+.*\s+\(\d{4}\)\.\s+.*\.\s+[A-Z][a-zA-Z0-9].*,\s+\d+` -/
def apa_pattern : RE :=
  rcat [RE.bol, upperR, plusR nameR, RE.star RE.dot, plusR wsR, chrR '(', digit4,
        chrR ')', chrR '.', plusR wsR, RE.star RE.dot, chrR '.', plusR wsR, upperR,
        alnumR, RE.star RE.dot, chrR ',', plusR wsR, plusR digitR]

/-- `^[A-Z][a-zA-Z'-]+.*\.\s+[A-Z][a-zA-Z0-9].*\.\s+\d{4};\d+` -/
def vancouver_pattern : RE :=
  rcat [RE.bol, upperR, plusR nameR, RE.star RE.dot, chrR '.', plusR wsR, upperR,
        alnumR, RE.star RE.dot, chrR '.', plusR wsR, digit4, chrR ';', plusR digitR]

/-- `^[A-Z][a-zA-Z'-]+,\s*\"` -/
def ieee_pattern : RE :=
  rcat [RE.bol, upperR, plusR nameR, chrR ',', RE.star wsR, chrR '\"']

/-- Python `max(counts, key=counts.get)` over an insertion-ordered dict:
the first key attaining the maximum value wins. -/
def pyMaxKey : List (String × Nat) → String
  | [] => ""
  | kv0 :: rest =>
    (rest.foldl (fun cur kv => if kv.2 > cur.2 then kv else cur) kv0).1

/-- The per-line signature counts of `_determine_reference_format`
(`counts["nature"]`, `"apa"`, `"vancouver"`, `"ieee"`). -/
def refFormatCounts (ref_text : List Char) : Nat × Nat × Nat × Nat :=
  (pySplitNl ref_text).foldl
    (fun c ln =>
      let line := pyStrip ln
      let c1 := if reMatchB flagsNone nature_pattern line then c.1 + 1 else c.1
      let c2 := if reMatchB flagsNone apa_pattern line then c.2.1 + 1 else c.2.1
      let c3 := if reMatchB flagsNone vancouver_pattern line then c.2.2.1 + 1 else c.2.2.1
      let c4 := if reMatchB flagsNone ieee_pattern line then c.2.2.2 + 1 else c.2.2.2
      (c1, c2, c3, c4))
    (0, 0, 0, 0)

/-- `JournalStyleAnalyzer._determine_reference_format`. -/
def _determine_reference_format (ref_text : List Char) : String :=
  let c := refFormatCounts ref_text
  if max (max c.1 c.2.1) (max c.2.2.1 c.2.2.2) = 0 then "nature"
  else pyMaxKey [("nature", c.1), ("apa", c.2.1), ("vancouver", c.2.2.1),
                 ("ieee", c.2.2.2)]

/-! ### `CitationStyle` dataclass and the paper-file model -/

/-- The `CitationStyle` dataclass with its field defaults. -/
structure CitationStyle where
  citation_type : String := "author-year"
  in_text_patterns : List String := []
  reference_format : String := "nature"
  example_in_text_citation : String := ""
  example_reference : String := ""
  latex_citation_command : String := "\\citep"
  latex_bibliography_env : String := "thebibliography"
deriving DecidableEq, Repr

/-- A paper file as the analyzer sees it: the path's suffix and the plain
text the (out-of-scope) loader produces for it — the pdfplumber page dump for
`.pdf`, the file content for `.txt`/`.md`. -/
structure PaperPath where
  suffix : String
  text : String
deriving DecidableEq, Repr

/-- `pdf_path.suffix.lower()`. -/
def lowerS (s : String) : String := String.mk (lowerCL s.data)

/-- The suffix dispatch shared by `extract_references_section`,
`analyze_citation_style` and `extract_text_from_pdf`: the full text for a
supported format, `none` otherwise. -/
def loadFullText (p : PaperPath) : Option (List Char) :=
  if lowerS p.suffix = ".pdf" then some p.text.data
  else if lowerS p.suffix = ".txt" || lowerS p.suffix = ".md" then some p.text.data
  else none

/-! ### `extract_references_section` (source lines 804–866) -/

/-- `(?:\[:\]|\[::\])?` -/
def optColonBox : RE :=
  RE.opt (RE.alt (cstr "[:]") (cstr "[::]"))

/-- The ordered reference-header patterns (source lines 826–835), compiled
with `re.MULTILINE | re.IGNORECASE`. -/
def ref_section_patterns : List RE :=
  [ rcat [startAnchor, RE.star wsR, istr "reference", RE.opt (ichrR 's'),
          RE.star wsR, optColonBox, RE.star wsR, RE.eol],
    rcat [startAnchor, RE.star wsR, istr "reference", RE.opt (ichrR 's'),
          RE.star wsR, chrR ':', RE.star wsR, RE.eol],
    rcat [startAnchor, RE.star wsR, istr "bibliography", RE.star wsR, optColonBox,
          RE.star wsR, RE.eol],
    rcat [startAnchor, RE.star wsR, istr "reference", RE.star wsR, istr "list",
          RE.star wsR, RE.eol],
    rcat [startAnchor, RE.star wsR, chrR '[', plusR digitR, chrR ']', RE.star wsR,
          istr "reference", RE.opt (ichrR 's'), RE.star wsR, RE.eol],
    rcat [startAnchor, RE.star wsR, chrR '[', plusR digitR, chrR ']', RE.star wsR,
          istr "bibliography", RE.star wsR, RE.eol],
    rcat [startAnchor, RE.star wsR, istr "参考文献", RE.star wsR, RE.eol] ]

/-- The "end of references" patterns (source lines 851–858), searched with
`re.IGNORECASE` only. -/
def ref_section_end_patterns : List RE :=
  [ rcat [chrR '\n', RE.star wsR, istr "appendix", RE.wordb],
    rcat [chrR '\n', RE.star wsR, istr "supplementary", RE.star wsR,
          istr "material", RE.wordb],
    rcat [chrR '\n', RE.star wsR, istr "supplementary", RE.star wsR,
          istr "information", RE.wordb],
    rcat [chrR '\n', RE.star wsR, istr "acknowledgement", RE.opt (ichrR 's'),
          RE.wordb],
    rcat [chrR '\n', RE.star wsR, istr "致谢", RE.wordb],
    rcat [chrR '\n', RE.star wsR, istr "附录", RE.wordb] ]

/-- `JournalStyleAnalyzer.extract_references_section`.  Unsupported suffixes
return `""` (the source's early `return ""`), matching the Python control
flow in which only the loader itself can raise. -/
def extract_references_section (p : PaperPath) : List Char :=
  match loadFullText p with
  | none => []
  | some full_text =>
    match firstSearchStart flagsIM ref_section_patterns full_text with
    | none => []
    | some ref_start =>
      let ref_text := full_text.drop ref_start
      let ref_text' :=
        match firstSearchStart flagsI ref_section_end_patterns ref_text with
        | some ms => ref_text.take ms
        | none => ref_text
      pyStrip ref_text'

/-! ### `analyze_citation_style` (source lines 868–965)

All citation-shape patterns are compiled without flags (case-sensitive). -/

def numbered_patterns : List RE :=
  [ rcat [chrR '[', plusR digitR, chrR ']'],
    rcat [chrR '[', plusR digitR, RE.star wsR, chrR ',', RE.star wsR, plusR digitR,
          chrR ']'],
    rcat [chrR '[', plusR digitR, RE.star wsR, chrR '-', RE.star wsR, plusR digitR,
          chrR ']'],
    rcat [chrR '[', plusR digitR, RE.star wsR, chrR ',', RE.star wsR, plusR digitR,
          RE.star wsR, chrR '-', RE.star wsR, plusR digitR, chrR ']'] ]

def author_year_patterns : List RE :=
  [ rcat [chrR '(', upperR, plusR nameR, plusR wsR, cstr "et", plusR wsR, cstr "al",
          RE.opt (chrR '.'), chrR ',', RE.star wsR, digit4, chrR ')'],
    rcat [chrR '(', upperR, plusR nameR, chrR ',', plusR wsR, digit4, chrR ')'],
    rcat [chrR '(', upperR, plusR nameR, plusR wsR, cstr "and", plusR wsR, upperR,
          plusR nameR, chrR ',', RE.star wsR, digit4, chrR ')'],
    rcat [upperR, plusR nameR, plusR wsR, chrR '(', digit4, chrR ')'],
    rcat [upperR, plusR nameR, plusR wsR, cstr "et", plusR wsR, cstr "al",
          RE.opt (chrR '.'), plusR wsR, chrR '(', digit4, chrR ')'] ]

/-- `\[\d+\](?:,\s*\[\d+\])*(?:;\s*\[\d+\](?:,\s*\[\d+\])*)*` -/
def example_numbered_pattern : RE :=
  rcat [chrR '[', plusR digitR, chrR ']',
        RE.star (rcat [chrR ',', RE.star wsR, chrR '[', plusR digitR, chrR ']']),
        RE.star (rcat [chrR ';', RE.star wsR, chrR '[', plusR digitR, chrR ']',
                       RE.star (rcat [chrR ',', RE.star wsR, chrR '[', plusR digitR,
                                      chrR ']'])])]

/-- `\([A-Z][a-zA-Z'-]+(?:\s+et\s+al\.?)?,\s*\d{4}\)` -/
def example_author_year_pattern : RE :=
  rcat [chrR '(', upperR, plusR nameR,
        RE.opt (rcat [plusR wsR, cstr "et", plusR wsR, cstr "al", RE.opt (chrR '.')]),
        chrR ',', RE.star wsR, digit4, chrR ')']

/-- `[A-Z][a-zA-Z'-]+(?:\s+et\s+al\.?)?\s+\(\d{4}\)` -/
def example_narrative_pattern : RE :=
  rcat [upperR, plusR nameR,
        RE.opt (rcat [plusR wsR, cstr "et", plusR wsR, cstr "al", RE.opt (chrR '.')]),
        plusR wsR, chrR '(', digit4, chrR ')']

/-- `^(references?|bibliography|reference\s*list|\[\d+\]|参考文献)` with
`re.IGNORECASE` (only its truthiness is used). -/
def ref_title_pattern : RE :=
  rcat [RE.bol,
        ralt [rcat [istr "reference", RE.opt (ichrR 's')], istr "bibliography",
              rcat [istr "reference", RE.star wsR, istr "list"],
              rcat [chrR '[', plusR digitR, chrR ']'], istr "参考文献"]]

/-- Total matches of a pattern list (`sum of len(re.findall(p, text))`). -/
def findallTotal (pats : List RE) (s : List Char) : Nat :=
  pats.foldl (fun n p => n + reFindallCount flagsNone p s) 0

/-- `JournalStyleAnalyzer.analyze_citation_style`.  Never raises: unsupported
suffixes return the default style (source line 890). -/
def analyze_citation_style (p : PaperPath) : CitationStyle :=
  match loadFullText p with
  | none => {}
  | some full_text =>
    let numbered_count := findallTotal numbered_patterns full_text
    let author_year_count := findallTotal author_year_patterns full_text
    let s1 : CitationStyle :=
      if numbered_count > author_year_count then
        { citation_type := "numbered", latex_citation_command := "\\citep",
          latex_bibliography_env := "thebibliography" }
      else
        { citation_type := "author-year", latex_citation_command := "\\citep",
          latex_bibliography_env := "thebibliography" }
    -- the `example_patterns` loop: "numbered" and "author_year" both write
    -- `example_in_text_citation` (the later key overwrites); "narrative"
    -- writes nothing
    let s2 :=
      match reSearch flagsNone example_numbered_pattern full_text with
      | some m =>
        { s1 with example_in_text_citation :=
            String.mk (pyStrip (sliceCL full_text m.1 (m.1 + m.2.1))) }
      | none => s1
    let s3 :=
      match reSearch flagsNone example_author_year_pattern full_text with
      | some m =>
        { s2 with example_in_text_citation :=
            String.mk (pyStrip (sliceCL full_text m.1 (m.1 + m.2.1))) }
      | none => s2
    let s4 :=
      match reSearch flagsNone example_narrative_pattern full_text with
      | some _ => s3
      | none => s3
    let refs_text := extract_references_section p
    if refs_text ≠ [] then
      let s5 := { s4 with reference_format := String.mk (_determine_reference_format refs_text).data }
      match (pySplitNl refs_text).take 10 |>.findSome? (fun ln =>
          let line := pyStrip ln
          if 20 < line.length ∧ line.length < 500 ∧
              reMatchB flagsI ref_title_pattern line = false then some line
          else none) with
      | some line => { s5 with example_reference := String.mk line }
      | none => s5
    else s4

/-! ### `extract_text_from_pdf` (source lines 1212–1375)

The six primary `section_patterns` and the six `fallback_patterns` are
compiled with `re.DOTALL | re.IGNORECASE` (no MULTILINE) and searched in
`text_lower`; the matched `group(0)` is then re-located literally in the
lowered original to cut the cased slice.  The conclusion post-processing
patterns are `re.IGNORECASE | re.MULTILINE`. -/

def flagsDI : ReFlags := { multiline := false, dotall := true }

/-- `1\.?\s*` style numbered-heading alternative. -/
def numHead (d : Char) : RE := rcat [chrR d, RE.opt (chrR '.'), RE.star wsR]

/-- `(.+?)` -/
def lazyBody : RE := RE.grp (lazyplusR RE.dot)

/-- The `section_patterns` dict of `extract_text_from_pdf`, in order. -/
def ftp_section_patterns : List (String × RE) :=
  [ ("abstract",
     rcat [startAnchor, RE.star wsR, ralt [istr "abstract", istr "summary"],
           wsColonStar, RE.star (chrR '\n'), lazyBody,
           RE.look (ralt [numHead '1', istr "introduction", istr "background",
                          istr "methods"])]),
    ("introduction",
     rcat [startAnchor, RE.star wsR,
           ralt [numHead '1', istr "introduction", istr "background"],
           wsColonStar, RE.star (chrR '\n'), lazyBody,
           RE.look (ralt [numHead '2', istr "methods",
                          istr "materials and methods", istr "results"])]),
    ("methods",
     rcat [startAnchor, RE.star wsR,
           ralt [numHead '2', istr "methods", istr "materials and methods"],
           wsColonStar, RE.star (chrR '\n'), lazyBody,
           RE.look (ralt [numHead '3', istr "results", istr "discussion",
                          istr "conclusion"])]),
    ("results",
     rcat [startAnchor, RE.star wsR, ralt [numHead '3', istr "results"],
           wsColonStar, RE.star (chrR '\n'), lazyBody,
           RE.look (ralt [numHead '4', istr "discussion", istr "conclusion",
                          istr "methods"])]),
    ("discussion",
     rcat [startAnchor, RE.star wsR, ralt [numHead '4', istr "discussion"],
           wsColonStar, RE.star (chrR '\n'), lazyBody,
           RE.look (ralt [numHead '5', istr "conclusion",
                          rcat [istr "final", RE.star wsR, istr "remarks"],
                          istr "references", istr "acknowledgements"])]),
    ("conclusion",
     rcat [startAnchor, RE.star wsR,
           ralt [numHead '5', istr "conclusion",
                 rcat [istr "final", RE.star wsR, istr "remarks"],
                 rcat [istr "conclusion", RE.opt (ichrR 's')]],
           wsColonStar, RE.star (chrR '\n'), lazyBody,
           RE.look (rcat [chrR '\n', RE.star wsR,
                          ralt [istr "references", istr "bibliography",
                                istr "acknowledgements", istr "appendix",
                                rcat [istr "reference", RE.star wsR, istr "list"],
                                istr "后记", istr "致谢", RE.eol]])]) ]

/-- `[^\n]` -/
def notNlR : RE := RE.cls (fun c => c ≠ '\n')

/-- The `fallback_patterns` dict, in order. -/
def ftp_fallback_patterns : List (String × RE) :=
  [ ("abstract",
     rcat [ralt [istr "abstract", istr "summary"], plusR wsR, lazyBody,
           RE.look (ralt [rcat [chrR '\n', RE.star wsR, plusR digitR, wsR],
                          rcat [chrR '\n', RE.star wsR, istr "introduction"],
                          rcat [chrR '\n', RE.star wsR, istr "background"]])]),
    ("introduction",
     rcat [ralt [istr "introduction", istr "background"], plusR wsR, lazyBody,
           RE.look (ralt [rcat [chrR '\n', RE.star wsR, plusR digitR, wsR],
                          rcat [chrR '\n', RE.star wsR, istr "methods"],
                          rcat [chrR '\n', RE.star wsR, istr "materials"]])]),
    ("methods",
     rcat [ralt [istr "methods", istr "materials"], plusR wsR, lazyBody,
           RE.look (ralt [rcat [chrR '\n', RE.star wsR, plusR digitR, wsR],
                          rcat [chrR '\n', RE.star wsR, istr "results"],
                          rcat [chrR '\n', RE.star wsR, istr "discussion"]])]),
    ("results",
     rcat [ralt [istr "results", istr "findings"], plusR wsR, lazyBody,
           RE.look (ralt [rcat [chrR '\n', RE.star wsR, plusR digitR, wsR],
                          rcat [chrR '\n', RE.star wsR, istr "discussion"],
                          rcat [chrR '\n', RE.star wsR, istr "conclusion"]])]),
    ("discussion",
     rcat [ralt [istr "discussion",
                 rcat [istr "interpretation", RE.opt (ichrR 's')]], plusR wsR,
           lazyBody,
           RE.look (ralt [rcat [chrR '\n', RE.star wsR, plusR digitR, wsR],
                          rcat [chrR '\n', RE.star wsR, istr "conclusion"],
                          rcat [chrR '\n', RE.star wsR, istr "final"]])]),
    ("conclusion",
     rcat [ralt [istr "conclusion", istr "conclusions",
                 rcat [istr "final", RE.star wsR, istr "remarks"],
                 rcat [istr "concl", RE.opt (chrR '.'), RE.star wsR,
                       RE.opt (plusR digitR)]],
           RE.star (RE.cls (fun c => isPySpace c || c = ':')),
           RE.grp (rcat [plusR notNlR,
             RE.star (RE.seq
               (RE.nlook (ralt
                 [ rcat [chrR '\n', RE.star wsR,
                         RE.opt (rcat [chrR '[', plusR digitR, chrR ']', RE.star wsR]),
                         istr "reference", RE.opt (ichrR 's'), RE.wordb],
                   rcat [chrR '\n', RE.star wsR,
                         RE.opt (rcat [chrR '[', plusR digitR, chrR ']', RE.star wsR]),
                         istr "bibliography"],
                   rcat [chrR '\n', RE.star wsR, istr "acknowledgements"],
                   rcat [chrR '\n', RE.star wsR, istr "reference", plusR wsR,
                         istr "list"],
                   rcat [chrR '\n', RE.star wsR, istr "appendix"],
                   rcat [chrR '\n', RE.star wsR, RE.eol, chrR '\n'] ]))
               RE.dot)])]) ]

/-- The conclusion-truncation reference markers (source lines 1310–1330),
`re.IGNORECASE | re.MULTILINE`. -/
def conclusion_ref_patterns : List RE :=
  [ rcat [chrR '\n', RE.star wsR, chrR '[', plusR digitR, chrR ']', RE.star wsR,
          istr "reference", RE.opt (ichrR 's'), RE.wordb],
    rcat [chrR '\n', RE.star wsR, chrR '[', plusR digitR, chrR ']', RE.star wsR,
          istr "bibliography"],
    rcat [chrR '\n', RE.star wsR, chrR '[', plusR digitR, chrR ']', RE.star wsR,
          istr "reference"],
    rcat [chrR '\n', RE.star wsR, RE.opt (rcat [istr "the", plusR wsR]),
          istr "reference", RE.opt (ichrR 's'), RE.star wsR,
          ralt [cstr "[:]", cstr "[::]", RE.eol]],
    rcat [chrR '\n', RE.star wsR, RE.opt (rcat [istr "the", plusR wsR]),
          istr "bibliography", RE.wordb],
    rcat [chrR '\n', RE.star wsR, RE.opt (rcat [istr "the", plusR wsR]),
          istr "reference", plusR wsR, istr "list", RE.wordb],
    rcat [chrR '\n', RE.star wsR, istr "acknowledgement", RE.opt (ichrR 's'),
          RE.wordb],
    rcat [chrR '\n', RE.star wsR, istr "appendix", RE.wordb],
    rcat [chrR '\n', RE.star wsR, istr "supplementary", RE.star wsR,
          istr "material", RE.wordb],
    rcat [chrR '\n', RE.star wsR, istr "supplementary", RE.star wsR,
          istr "information", RE.wordb],
    rcat [chrR '\n', RE.star wsR, istr "参考文献", RE.wordb],
    rcat [chrR '\n', RE.star wsR, istr "致谢", RE.wordb],
    rcat [chrR '\n', RE.star wsR, istr "附录", RE.wordb],
    rcat [RE.bol, istr "reference", RE.opt (ichrR 's'), RE.star wsR, RE.eol],
    rcat [RE.bol, istr "reference", plusR wsR, istr "list", RE.star wsR, RE.eol] ]

/-- `^\[\d+\]|^[A-Z][a-z]+,\s*\d{4}|^\s*\d+\.\s+` (looks-like-a-reference test
of the trailing-paragraph walk, `re.match`, no flags). -/
def last_para_pattern : RE :=
  ralt [ rcat [RE.bol, chrR '[', plusR digitR, chrR ']'],
         rcat [RE.bol, upperR, plusR lowerR, chrR ',', RE.star wsR, digit4],
         rcat [RE.bol, RE.star wsR, plusR digitR, chrR '.', plusR wsR] ]

/-- A stripped paragraph that "looks like a reference" and is short. -/
def looksLikeRefPara (para : List Char) : Bool :=
  reMatchB flagsNone last_para_pattern para && para.length < 500

/-- One primary- or fallback-pattern application: search in `text_lower`,
re-locate `group(0)` literally in the lowered original, and return the
stripped cased slice (or the stripped `group(1)` when re-location fails). -/
def ftpApply (full_text text_lower : List Char) (pat : RE) : Option (List Char) :=
  match reSearch flagsDI pat text_lower with
  | none => none
  | some (ms, mlen, g) =>
    let matched_text := pyStrip (g.getD [])
    let group0 := sliceCL text_lower ms (ms + mlen)
    match findSub group0 text_lower with
    | some os => some (pyStrip (sliceCL full_text os (os + group0.length)))
    | none => some matched_text

/-- `JournalStyleAnalyzer.extract_text_from_pdf` (the only raising path is
the unsupported-extension `ValueError`). -/
def extract_text_from_pdf (p : PaperPath) :
    Except String (List (String × List Char)) :=
  match loadFullText p with
  | none => .error ("不支持的文件格式: " ++ p.suffix)
  | some full_text =>
    let text_lower := lowerCL full_text
    let s0 : List (String × List Char) :=
      [("introduction", []), ("methods", []), ("results", []), ("discussion", [])]
    let s1 := ftp_section_patterns.foldl (fun d sp =>
      match ftpApply full_text text_lower sp.2 with
      | some content => dset d sp.1 content
      | none => d) s0
    let s2 := (s1.map (·.1)).foldl (fun d k =>
      let v := (dget d k).getD []
      if v = [] ∨ v.length < 100 then
        match dget ftp_fallback_patterns k with
        | none => d
        | some pat =>
          match ftpApply full_text text_lower pat with
          | some content => dset d k content
          | none => d
      else d) s1
    let conclusion_text := (dget s2 "conclusion").getD []
    let s3 :=
      if conclusion_text ≠ [] then
        match firstSearchStart flagsIM conclusion_ref_patterns conclusion_text with
        | some ms => dset s2 "conclusion" (pyStrip (conclusion_text.take ms))
        | none =>
          if conclusion_text.length > 5000 then
            let paragraphs := pySplitPar conclusion_text
            let last_valid_idx :=
              (((List.range paragraphs.length).reverse).find? (fun i =>
                !looksLikeRefPara (pyStrip (paragraphs.getD i [])))).getD
                (paragraphs.length - 1)
            let truncated := joinPar (paragraphs.take (last_valid_idx + 1))
            if truncated.length < conclusion_text.length then
              dset s2 "conclusion" truncated
            else s2
          else s2
      else s2
    .ok s3

/-! ### Python values, the tagging collaborator, and `_analyze_chunk`

`analyze_text` returns a Python dict of heterogeneous values; `PyVal` embeds
the shapes that actually occur (numbers, lists, nested dicts).  Counters are
dicts from term to number, in first-seen insertion order. -/

inductive PyVal : Type where
  | num (q : ℚ) : PyVal
  | arr (l : List PyVal) : PyVal
  | table (m : List (String × PyVal)) : PyVal

abbrev PyDict : Type := List (String × PyVal)

def PyVal.asNum : PyVal → ℚ
  | .num q => q
  | _ => 0

def PyVal.asArr : PyVal → List PyVal
  | .arr l => l
  | _ => []

def PyVal.asTable : PyVal → PyDict
  | .table m => m
  | _ => []

abbrev Counter : Type := List (String × ℚ)

/-- `counter[k] += q` (missing keys count as 0; new keys are appended, as in
Python's `Counter`). -/
def counterAdd (c : Counter) (k : String) (q : ℚ) : Counter :=
  dset c k (((dget c k).getD 0) + q)

/-- `Counter(words)`: counts in first-seen order. -/
def counterOf (words : List String) : Counter :=
  words.foldl (fun c w => counterAdd c w 1) []

/-- `Counter.update(m)`: add `m`'s counts key-wise, appending new keys in
`m`'s order. -/
def counterUpdate (c m : Counter) : Counter :=
  m.foldl (fun acc kv => counterAdd acc kv.1 kv.2) c

/-- Stable descending insertion: an element goes after all elements with a
count `≥` its own, so `Counter.most_common` ties keep insertion order. -/
def insertByCountDesc (x : String × ℚ) : Counter → Counter
  | [] => [x]
  | y :: ys => if y.2 ≥ x.2 then y :: insertByCountDesc x ys else x :: y :: ys

/-- `Counter.most_common(n)`. -/
def mostCommon (c : Counter) (n : Nat) : Counter :=
  (c.foldl (fun acc x => insertByCountDesc x acc) []).take n

def counterToVal (c : Counter) : PyVal :=
  .table (c.map (fun kv => (kv.1, .num kv.2)))

def valToCounter (v : PyVal) : Counter :=
  v.asTable.map (fun kv => (kv.1, kv.2.asNum))

/-- One spaCy token, as consumed by `_analyze_chunk`: `token.text`,
`token.lemma_`, `token.pos_`, `token.tag_`, `token.dep_`. -/
structure SpacyToken where
  text : String
  lemma_ : String
  pos_ : String
  tag_ : String
  dep_ : String
deriving DecidableEq, Repr

/-- The output of `self.nlp(chunk)`: tokens plus the sentence texts
(`doc.sents`). -/
structure SpacyDoc where
  tokens : List SpacyToken
  sents : List String
deriving DecidableEq, Repr

/-- The analyzer's external collaborators: the spaCy pipeline (which may
raise on a chunk — the event the retry logic reacts to) and the NLTK
stop-word set. -/
structure NlpEnv where
  nlp : String → Except String SpacyDoc
  stop_words : String → Bool

/-- Sum of a list of numbers. -/
def sumQ (l : List ℚ) : ℚ := l.foldl (· + ·) 0

/-- `JournalStyleAnalyzer._analyze_chunk` (source lines 1617–1702).  The
function's own `try/except` fallback (all-zero dict) is unreachable in the
model because the embedded body is total. -/
def _analyze_chunk (env : NlpEnv) (doc : SpacyDoc) (_section : String) : PyDict :=
  let keep (t : SpacyToken) : Bool :=
    !env.stop_words (lowerS t.text) && t.text.length > 2
  let nouns := doc.tokens.filterMap
    (fun t => if t.pos_ = "NOUN" && keep t then some (lowerS t.text) else none)
  let verbs := doc.tokens.filterMap
    (fun t => if t.pos_ = "VERB" && keep t then some (lowerS t.lemma_) else none)
  let adjectives := doc.tokens.filterMap
    (fun t => if t.pos_ = "ADJ" && keep t then some (lowerS t.text) else none)
  let adverbs := doc.tokens.filterMap
    (fun t => if t.pos_ = "ADV" && keep t then some (lowerS t.text) else none)
  let sentence_lengths := doc.sents.map (fun s => ((pySplitWs s.data).length : ℚ))
  let avg_sentence_length : ℚ :=
    if sentence_lengths ≠ [] then sumQ sentence_lengths / (sentence_lengths.length : ℚ)
    else 0
  let passive_count := (doc.tokens.filter (fun t => t.dep_ = "nsubjpass")).length
  let passive_ratio : ℚ :=
    if doc.sents ≠ [] then (passive_count : ℚ) / (doc.sents.length : ℚ) else 0
  [ ("vocabulary", .table
      [ ("nouns", counterToVal (mostCommon (counterOf nouns) 20)),
        ("verbs", counterToVal (mostCommon (counterOf verbs) 20)),
        ("adjectives", counterToVal (mostCommon (counterOf adjectives) 20)),
        ("adverbs", counterToVal (mostCommon (counterOf adverbs) 20)) ]),
    ("sentence_structure", .table
      [ ("avg_sentence_length", .num avg_sentence_length),
        ("sentence_count", .num (doc.sents.length : ℚ)),
        ("total_tokens", .num (doc.tokens.length : ℚ)) ]),
    ("stylistic_features", .table
      [ ("passive_voice_ratio", .num passive_ratio),
        ("token_count", .num (doc.tokens.length : ℚ)) ]) ]

/-! ### `_merge_chunk_results` (source lines 1704–1755) -/

/-- `merged["vocabulary"][category][word] = .get(word, 0) + freq`, with the
in-loop guard creating the category dict. -/
def updVocabWord (m : PyDict) (cat word : String) (freq : ℚ) : PyDict :=
  let voc := ((dget m "vocabulary").getD (.table [])).asTable
  let voc := if (dget voc cat).isNone then dset voc cat (.table []) else voc
  let cm := ((dget voc cat).getD (.table [])).asTable
  let cur := ((dget cm word).getD (.num 0)).asNum
  dset m "vocabulary" (.table (dset voc cat (.table (dset cm word (.num (cur + freq))))))

/-- The vocabulary-merging loop over the four fixed categories. -/
def mergeVocab (m cr : PyDict) : PyDict :=
  ["nouns", "verbs", "adjectives", "adverbs"].foldl (fun m cat =>
    let crv := ((dget cr "vocabulary").getD (.table [])).asTable
    match dget crv cat with
    | none => m
    | some catv =>
      catv.asTable.foldl (fun m kv => updVocabWord m cat kv.1 kv.2.asNum) m) m

/-- Append `v` to the list at `m[outer][key]`, creating the empty list first
when the key is new (`if key not in ...: ... = []` then `.append`). -/
def appendInnerKey (m : PyDict) (outer key : String) (v : PyVal) : PyDict :=
  let ss := ((dget m outer).getD (.table [])).asTable
  let ss := if (dget ss key).isNone then dset ss key (.arr []) else ss
  let lst := ((dget ss key).getD (.arr [])).asArr
  dset m outer (.table (dset ss key (.arr (lst ++ [v]))))

/-- The `sentence_structure` accumulation loop. -/
def mergeSentStruct (m cr : PyDict) : PyDict :=
  (((dget cr "sentence_structure").getD (.table [])).asTable).foldl
    (fun m kv => appendInnerKey m "sentence_structure" kv.1 kv.2) m

/-- `if lengths and isinstance(lengths, list): merged[key] = sum/len`
(with the `elif isinstance(..., (int, float))` pass-through branch). -/
def meanUpd (m : PyDict) (key : String) (vOpt : Option PyVal) : PyDict :=
  match vOpt with
  | some (PyVal.arr l) =>
    if !l.isEmpty then
      dset m key (.num (sumQ (l.map PyVal.asNum) / (l.length : ℚ)))
    else m
  | some (PyVal.num q) => dset m key (.num q)
  | _ => m

/-- The flattening block (source lines 1725–1745): copy the vocabulary
categories to top-level keys and store running means of
`avg_sentence_length` / `passive_voice_ratio` (the latter read *before* the
current chunk's stylistic features are appended). -/
def flattenMerged (m : PyDict) : PyDict :=
  let voc := ((dget m "vocabulary").getD (.table [])).asTable
  let m := dset m "nouns" ((dget voc "nouns").getD (.table []))
  let m := dset m "verbs" ((dget voc "verbs").getD (.table []))
  let m := dset m "adjectives" ((dget voc "adjectives").getD (.table []))
  let m := dset m "adverbs" ((dget voc "adverbs").getD (.table []))
  let ss := ((dget m "sentence_structure").getD (.table [])).asTable
  let m := meanUpd m "avg_sentence_length" (dget ss "avg_sentence_length")
  let sf := ((dget m "stylistic_features").getD (.table [])).asTable
  meanUpd m "passive_voice_ratio" (dget sf "passive_voice_ratio")

/-- The `stylistic_features` accumulation loop. -/
def mergeStylistic (m cr : PyDict) : PyDict :=
  (((dget cr "stylistic_features").getD (.table [])).asTable).foldl
    (fun m kv => appendInnerKey m "stylistic_features" kv.1 kv.2) m

/-- `JournalStyleAnalyzer._merge_chunk_results` (its internal `try/except`
can never fire for the shapes produced by `_analyze_chunk`). -/
def _merge_chunk_results (m cr : PyDict) : PyDict :=
  mergeStylistic (flattenMerged (mergeSentStruct (mergeVocab m cr) cr)) cr

/-! ### `_create_smaller_chunks` (source lines 1757–1768) -/

/-- `" ".join`. -/
def joinSp : List (List Char) → List Char
  | [] => []
  | [x] => x
  | x :: y :: t => x ++ [' '] ++ joinSp (y :: t)

/-- Successive groups of `n` elements (`words[i : i + chunk_size]`).
Fueled; `fuel = l.length` suffices since each step drops `n ≥ 1` elements. -/
def groupsOfAux {α : Type} (n : Nat) : Nat → List α → List (List α)
  | 0, _ => []
  | _ + 1, [] => []
  | fuel + 1, l => l.take n :: groupsOfAux n fuel (l.drop n)

/-- `JournalStyleAnalyzer._create_smaller_chunks`: `chunk_size` counts
*words* (`text.split()`), joined back with single spaces. -/
def _create_smaller_chunks (text : List Char) (chunk_size : Nat) : List (List Char) :=
  (groupsOfAux chunk_size text.length (pySplitWs text)).filterMap (fun g =>
    let chunk := joinSp g
    if pyStrip chunk ≠ [] then some chunk else none)

/-! ### `analyze_text` (source lines 1377–1461)

The function returns `merged_result` at line 1461; the statistics code at
lines 1463–1615 (word frequencies, tense, transition and conjunction counts,
sentence typing) sits *after* that `return` and is unreachable, so it is not
part of the embedded behaviour. -/

/-- The inline chunking of `analyze_text` (lines 1392–1411): identical to
`_chunk_text_by_paragraphs` with `max_chunk_size = 30000`. -/
def analysisChunks (text : List Char) : List (List Char) :=
  if text.length > 30000 then chunkLoop 30000 (pySplitPar text) [] []
  else [text]

/-- `merged_result`'s initial value. -/
def merged0 : PyDict :=
  [("vocabulary", .table []), ("sentence_structure", .table []),
   ("stylistic_features", .table [])]

/-- The per-chunk body of `analyze_text`'s loop: tag and merge; on a tagger
exception, retry with `_create_smaller_chunks(chunk, 5000)` — but only when
the chunk is longer than 10,000 characters — skipping sub-chunks that fail
again; shorter failing chunks are skipped outright. -/
def processChunk (env : NlpEnv) (sect : String) (m : PyDict)
    (chunk : List Char) : PyDict :=
  match env.nlp (String.mk chunk) with
  | .ok doc => _merge_chunk_results m (_analyze_chunk env doc sect)
  | .error _ =>
    if chunk.length > 10000 then
      (_create_smaller_chunks chunk 5000).foldl (fun m sc =>
        match env.nlp (String.mk sc) with
        | .ok doc => _merge_chunk_results m (_analyze_chunk env doc sect)
        | .error _ => m) m
    else m

/-- `JournalStyleAnalyzer.analyze_text` (the second, effective definition of
per-section analysis). -/
def analyze_text (env : NlpEnv) (text : String) (sect : String) : PyDict :=
  if pyStrip text.data = [] then []
  else (analysisChunks text.data).foldl (processChunk env sect) merged0

/-! ### `analyze_papers` (the second, effective definition, source lines
1770–1920; the first definition at lines 1012–1175 is shadowed by it in the
class body and is unreachable) -/

/-- `HEDGING_TERMS` (source lines 163–193).  The source literal is a Python
`set` (so its iteration order is interpreter-defined and `"relatively"`,
listed twice, occurs once); the order below is the literal's order and only
affects tie-breaking inside `most_common(20)`. -/
def HEDGING_TERMS : List String :=
  ["approximately", "roughly", "about", "suggest", "suggests", "suggested",
   "may", "might", "could", "would", "possibly", "perhaps", "probably",
   "relatively", "somewhat", "fairly", "rather", "tend", "tends", "tended",
   "appear", "appears", "appeared", "seem", "seems", "seemed, indicate",
   "indicates", "indicated"]

/-- The aggregation state of the corpus loop (lines 1790–1803). -/
structure PapersAcc where
  all_nouns : Counter := []
  all_verbs : Counter := []
  all_adjectives : Counter := []
  all_adverbs : Counter := []
  all_prepositions : Counter := []
  all_hedging : Counter := []
  all_tense : List (String × List Counter) := []
  all_transitions : Counter := []
  all_conjunctions : Counter := []
  all_sentence_lengths : List ℚ := []
  all_sentence_length_distributions : List (String × List ℚ) := []
  all_sentence_types : List (String × List ℚ) := []
  passive_ratios : List ℚ := []

/-- `d[k].append(v)` on a `defaultdict(list)`. -/
def appendToKey {α : Type} (d : List (String × List α)) (k : String) (v : α) :
    List (String × List α) :=
  dset d k (((dget d k).getD []) ++ [v])

/-- The per-section body of the corpus loop (lines 1808–1857). -/
def sectionStep (env : NlpEnv) (acc : PapersAcc) (sv : String × List Char) :
    PapersAcc :=
  if pyStrip sv.2 = [] then acc
  else
    let sect := sv.1
    let text := sv.2
    let analysis := analyze_text env (String.mk text) sect
    let getTbl (k : String) : Counter :=
      valToCounter ((dget analysis k).getD (.table []))
    let acc := { acc with
      all_nouns := counterUpdate acc.all_nouns (getTbl "nouns"),
      all_verbs := counterUpdate acc.all_verbs (getTbl "verbs"),
      all_adjectives := counterUpdate acc.all_adjectives (getTbl "adjectives"),
      all_adverbs := counterUpdate acc.all_adverbs (getTbl "adverbs"),
      all_prepositions := counterUpdate acc.all_prepositions (getTbl "prepositions") }
    let acc := { acc with
      all_hedging := HEDGING_TERMS.foldl (fun (h : Counter) (word : String) =>
        let count := pyCount word.data (lowerCL text)
        if count > 0 then counterAdd h word (count : ℚ) else h) acc.all_hedging }
    let tense := getTbl "tense_distribution"
    let acc :=
      if tense ≠ [] then
        -- `section_key = section if section != "general" else "general"`
        { acc with all_tense := appendToKey acc.all_tense sect tense }
      else acc
    let transitions := getTbl "transition_counts"
    let acc := { acc with
      all_transitions := transitions.foldl
        (fun (t : Counter) (kv : String × ℚ) =>
          dset t kv.1 (((dget t kv.1).getD 0) + kv.2))
        acc.all_transitions }
    let conjunctions := getTbl "conjunction_counts"
    let acc := { acc with
      all_conjunctions := conjunctions.foldl
        (fun (t : Counter) (kv : String × ℚ) =>
          dset t kv.1 (((dget t kv.1).getD 0) + kv.2))
        acc.all_conjunctions }
    let acc := { acc with
      all_sentence_lengths := acc.all_sentence_lengths ++
        [((dget analysis "avg_sentence_length").getD (.num 0)).asNum] }
    let length_dist := getTbl "sentence_length_distribution"
    let acc := { acc with
      all_sentence_length_distributions := length_dist.foldl
        (fun (d : List (String × List ℚ)) (kv : String × ℚ) =>
          appendToKey d kv.1 kv.2) acc.all_sentence_length_distributions }
    let sentence_types := getTbl "sentence_types"
    let acc := { acc with
      all_sentence_types := sentence_types.foldl
        (fun (d : List (String × List ℚ)) (kv : String × ℚ) =>
          appendToKey d kv.1 kv.2) acc.all_sentence_types }
    { acc with passive_ratios := acc.passive_ratios ++
        [((dget analysis "passive_ratio").getD (.num 0)).asNum] }

/-- The document loop: `extract_text_from_pdf` is called with *no*
surrounding `try/except`, so its `ValueError` propagates out of
`analyze_papers` and the remaining documents are never reached. -/
def papersLoop (env : NlpEnv) : List PaperPath → PapersAcc →
    Except String PapersAcc
  | [], acc => .ok acc
  | p :: rest, acc =>
    match extract_text_from_pdf p with
    | .error e => .error e
    | .ok sections => papersLoop env rest (sections.foldl (sectionStep env) acc)

/-- Python `round(q, d)` transplanted to rationals (round half to even).
Python rounds binary floats; no claim here depends on the rounding of an
inexact value. -/
def pyRound (q : ℚ) (d : Nat) : ℚ :=
  let p : ℚ := ((10 : ℕ) ^ d : ℕ)
  let m := q * p
  let f := m.floor
  let r := m - (f : ℚ)
  if r < 1 / 2 then (f : ℚ) / p
  else if 1 / 2 < r then ((f + 1 : ℤ) : ℚ) / p
  else (if f % 2 = 0 then (f : ℚ) else ((f + 1 : ℤ) : ℚ)) / p

/-- The `JournalStyleReport` dataclass (fields the effective code paths can
reach; `section_style_cards` / `section_conventions`, which nothing in the
embedded pipeline ever writes or reads, are omitted).  `analysis_date` is
the external wall clock, modelled as `""`. -/
structure JournalStyleReport where
  journal_name : String := ""
  analysis_date : String := ""
  papers_analyzed : Nat := 0
  high_frequency_nouns : Counter := []
  high_frequency_verbs : Counter := []
  high_frequency_adjectives : Counter := []
  high_frequency_adverbs : Counter := []
  hedging_terms : Counter := []
  tense_distribution : List (String × Counter) := []
  transition_words : List (String × Counter) := []
  conjunctions : List (String × Counter) := []
  prepositions : Counter := []
  sentence_structure : List (String × ℚ) := []
  sentence_length_distribution : List (String × ℚ) := []
  sentence_types : List (String × ℚ) := []
  citation_style : CitationStyle := {}
deriving DecidableEq, Repr

/-- Assembly of the report from the accumulators (lines 1859–1918).  The
`p["past"]` lookups inside the tense averaging are `getD 0` in the model;
Python would raise `KeyError` on a missing key, but the branch is vacuous
because `analysis` never carries a `"tense_distribution"` key. -/
def buildReport (journal_name : String) (nPapers : Nat) (acc : PapersAcc) :
    JournalStyleReport :=
  let tenseAvg := acc.all_tense.foldl (fun td skv =>
    if skv.2 ≠ [] then
      let n : ℚ := (skv.2.length : ℚ)
      let avg (key : String) : ℚ :=
        pyRound ((skv.2.foldl (fun s p => s + ((dget p key).getD 0)) 0) / n) 2
      dset td skv.1 [("past", avg "past"), ("present", avg "present"),
                     ("future", avg "future")]
    else td) []
  let transition_words := acc.all_transitions.foldl
    (fun d kv => dset d kv.1 [(kv.1, kv.2)]) []
  let conjunctions := acc.all_conjunctions.foldl
    (fun d kv => dset d kv.1 [(kv.1, kv.2)]) []
  let avg_length : ℚ :=
    if acc.all_sentence_lengths ≠ [] then
      sumQ acc.all_sentence_lengths / (acc.all_sentence_lengths.length : ℚ)
    else 0
  let avg_passive : ℚ :=
    if acc.passive_ratios ≠ [] then
      sumQ acc.passive_ratios / (acc.passive_ratios.length : ℚ)
    else 0
  let sentence_length_dist_avg := ["short", "medium", "long"].foldl (fun d t =>
    match dget acc.all_sentence_length_distributions t with
    | some ratios =>
      dset d t (if ratios ≠ [] then pyRound (sumQ ratios / (ratios.length : ℚ)) 3
                else 0)
    | none => d) []
  let sentence_types_avg := ["simple", "compound", "complex"].foldl (fun d t =>
    match dget acc.all_sentence_types t with
    | some ratios =>
      dset d t (if ratios ≠ [] then pyRound (sumQ ratios / (ratios.length : ℚ)) 3
                else 0)
    | none => d) []
  { journal_name := journal_name
    analysis_date := ""
    papers_analyzed := nPapers
    high_frequency_nouns := mostCommon acc.all_nouns 50
    high_frequency_verbs := mostCommon acc.all_verbs 30
    high_frequency_adjectives := mostCommon acc.all_adjectives 40
    high_frequency_adverbs := mostCommon acc.all_adverbs 40
    prepositions := mostCommon acc.all_prepositions 40
    hedging_terms := mostCommon acc.all_hedging 20
    tense_distribution := tenseAvg
    transition_words := transition_words
    conjunctions := conjunctions
    sentence_structure :=
      [("average_sentence_length", pyRound avg_length 2),
       ("passive_voice_ratio", pyRound avg_passive 2),
       ("papers_analyzed", (nPapers : ℚ))]
    sentence_length_distribution := sentence_length_dist_avg
    sentence_types := sentence_types_avg }

/-- `JournalStyleAnalyzer.analyze_papers` — the second, effective definition.
It never touches `report.citation_style`, and a loader error aborts the
whole run. -/
def analyze_papers (env : NlpEnv) (paper_paths : List PaperPath)
    (journal_name : String) : Except String JournalStyleReport :=
  match papersLoop env paper_paths {} with
  | .error e => .error e
  | .ok acc => .ok (buildReport journal_name paper_paths.length acc)

/-! ### Definitions modelled from the spec's words, for comparison

Each definition below follows a sentence of the specification (not the
source); the claim theorems compare them with the embedded source. -/

/-- Modelled from the spec: "per-document exceptions are caught at the
corpus-loop boundary, logged with the document identifier, and processing
continues with the remaining documents" — the corpus loop the claim
describes, in which a failing document is skipped. -/
def papersLoopCatchSpec (env : NlpEnv) : List PaperPath → PapersAcc → PapersAcc
  | [], acc => acc
  | p :: rest, acc =>
    match extract_text_from_pdf p with
    | .error _ => papersLoopCatchSpec env rest acc
    | .ok sections =>
      papersLoopCatchSpec env rest (sections.foldl (sectionStep env) acc)

/-- Modelled from the spec: `analyze_papers` as the claim describes it,
always returning a `StyleReport`. -/
def analyze_papers_catch_spec (env : NlpEnv) (paper_paths : List PaperPath)
    (journal_name : String) : JournalStyleReport :=
  buildReport journal_name paper_paths.length
    (papersLoopCatchSpec env paper_paths {})

/-- Modelled from the spec: "the splitter is invoked again on that chunk's
text alone with a much smaller bound" for *every* chunk whose extraction
fails — the unconditional degraded retry of claim C4. -/
def processChunkRetrySpec (env : NlpEnv) (sect : String) (m : PyDict)
    (chunk : List Char) : PyDict :=
  match env.nlp (String.mk chunk) with
  | .ok doc => _merge_chunk_results m (_analyze_chunk env doc sect)
  | .error _ =>
    (_create_smaller_chunks chunk 5000).foldl (fun m sc =>
      match env.nlp (String.mk sc) with
      | .ok doc => _merge_chunk_results m (_analyze_chunk env doc sect)
      | .error _ => m) m

/-- Modelled from the spec: `analyze_text` with the unconditional retry. -/
def analyze_text_retry_spec (env : NlpEnv) (text : String) (sect : String) :
    PyDict :=
  if pyStrip text.data = [] then []
  else (analysisChunks text.data).foldl (processChunkRetrySpec env sect) merged0

/-- The contribution of one chunk under the amended degraded-retry policy:
its analysis on success; on failure, the analyses of the surviving
sub-chunks when the chunk exceeds 10,000 characters, nothing otherwise. -/
def chunkContribs (env : NlpEnv) (sect : String) (chunk : List Char) :
    List PyDict :=
  match env.nlp (String.mk chunk) with
  | .ok doc => [_analyze_chunk env doc sect]
  | .error _ =>
    if chunk.length > 10000 then
      (_create_smaller_chunks chunk 5000).filterMap (fun sc =>
        match env.nlp (String.mk sc) with
        | .ok doc => some (_analyze_chunk env doc sect)
        | .error _ => none)
    else []

/-- The amended description of `analyze_text`: fold the merge over the
per-chunk contribution lists. -/
def analyze_text_degraded_spec (env : NlpEnv) (text : String) (sect : String) :
    PyDict :=
  if pyStrip text.data = [] then []
  else
    ((analysisChunks text.data).flatMap (chunkContribs env sect)).foldl
      _merge_chunk_results merged0

/-- First occurrences, in order (`first-seen`). -/
def firstOccurrences {α : Type} [DecidableEq α] (l : List α) : List α :=
  l.foldl (fun acc x => if x ∈ acc then acc else acc ++ [x]) []

/-- Modelled from the spec: "the most frequent `(citation_type,
reference_format)` pair across all documents wins by simple majority vote
(first-seen breaks ties)". -/
def firstSeenMostCommon {α : Type} [DecidableEq α] (l : List α) : Option α :=
  (firstOccurrences l).foldl (fun best x =>
    match best with
    | none => some x
    | some b => if l.count x > l.count b then some x else best) none

/-- The `(citation_type, reference_format)` pair of a document's detected
citation style. -/
def citationPair (p : PaperPath) : String × String :=
  ((analyze_citation_style p).citation_type,
   (analyze_citation_style p).reference_format)

/-- Modelled from the spec: "the signature with the most matching lines
determines `reference_format`, defaulting to `nature` on a tie or no
matches" — claim C8's reading, in which *any* tie yields `"nature"`. -/
def refFormatClaimSpec (ref_text : List Char) : String :=
  let c := refFormatCounts ref_text
  let mx := max (max c.1 c.2.1) (max c.2.2.1 c.2.2.2)
  if mx = 0 then "nature"
  else
    match ([("nature", c.1), ("apa", c.2.1), ("vancouver", c.2.2.1),
            ("ieee", c.2.2.2)].filter (fun kv => kv.2 = mx)).map Prod.fst with
    | [w] => w
    | _ => "nature"

/-- The amended tie-break: the signature with the most matching lines,
with ties going to the earliest of `nature`, `apa`, `vancouver`, `ieee`
(so `"nature"` when nothing matches). -/
def refFormatAmended (ref_text : List Char) : String :=
  let c := refFormatCounts ref_text
  if c.2.1 ≤ c.1 ∧ c.2.2.1 ≤ c.1 ∧ c.2.2.2 ≤ c.1 then "nature"
  else if c.2.2.1 ≤ c.2.1 ∧ c.2.2.2 ≤ c.2.1 then "apa"
  else if c.2.2.2 ≤ c.2.2.1 then "vancouver"
  else "ieee"

/-- The signature-count of a named format (0 for an unknown name). -/
def formatCount (c : Nat × Nat × Nat × Nat) (name : String) : Nat :=
  if name = "nature" then c.1
  else if name = "apa" then c.2.1
  else if name = "vancouver" then c.2.2.1
  else if name = "ieee" then c.2.2.2
  else 0

/-! ### Concrete fixtures used by the counterexamples and witnesses -/

/-- A tagger that always succeeds with an empty parse, and an empty
stop-word set. -/
def emptyDoc : SpacyDoc := { tokens := [], sents := [] }

def env0 : NlpEnv := { nlp := fun _ => .ok emptyDoc, stop_words := fun _ => false }

/-- A one-token parse carrying the noun "photosynthesis". -/
def nounDoc : SpacyDoc :=
  { tokens := [{ text := "Photosynthesis", lemma_ := "photosynthesis",
                 pos_ := "NOUN", tag_ := "NN", dep_ := "nsubj" }],
    sents := ["Photosynthesis grows."] }

/-- A tagger that fails on everything except the normalized sub-chunk
`"a b"` (which `_create_smaller_chunks` produces from `"a\n\nb"`). -/
def env2 : NlpEnv :=
  { nlp := fun s => if s = "a b" then .ok nounDoc else .error "tagger failure",
    stop_words := fun _ => false }

/-- A document with an extension no loader branch accepts. -/
def badDoc : PaperPath := { suffix := ".docx", text := "binary" }

/-- A text document whose body carries two numbered citations and no
section headers or references block. -/
def cdoc : PaperPath := { suffix := ".txt", text := "See [1] and [2]." }

/-- A text document with an Introduction section (long enough to be kept)
containing the transition words "however" and "thus". -/
def T1 : String :=
  "Introduction\nHowever, this body has enough length to be kept; thus we proceed with more words here to pass one hundred chars of the filter.\nMethods\n"

def t1doc : PaperPath := { suffix := ".txt", text := T1 }

/-- "Results" heading, 55-character body, "Discussion" heading, 55-character
body. -/
def t5 : List Char :=
  ("Results\n" ++ String.mk (List.replicate 55 'x') ++ "\nDiscussion\n"
    ++ String.mk (List.replicate 55 'y')).data

/-- What `extract_sections` actually stores for `results` at `t5`: the
heading *included*. -/
def resultsFull5 : List Char := ("Results\n" ++ String.mk (List.replicate 55 'x')).data

/-- The body between the "Results" heading and the "Discussion" heading of
`t5` — what claim C5 says the stored text is. -/
def bodyOnly5 : List Char := (String.mk (List.replicate 55 'x')).data

/-- A "Materials and Methods" heading with a 60-character body. -/
def t9 : List Char := ("Materials and Methods\n" ++ String.mk (List.replicate 60 'x')).data

/-- One APA-shaped line and one Vancouver-shaped line: a 1–1 tie. -/
def t8 : List Char :=
  ("Smith, J. (2020). Title of work. Journal, 12\nSmith J. Title of work. Journal. 2020;12:34-56.").data

/-- The spec glossary's nine section kinds. -/
def nineKinds : List String :=
  ["abstract", "introduction", "methods", "results", "discussion",
   "conclusion", "acknowledgements", "references", "appendix"]

/-- The keys of `SECTION_DEFINITIONS`: the nine plus `materials`. -/
def tenKinds : List String :=
  ["abstract", "introduction", "materials", "methods", "results",
   "discussion", "conclusion", "acknowledgements", "references", "appendix"]

/-- The count stored for `w` under `merged["vocabulary"]["nouns"]`. -/
def vocabNounCount (d : PyDict) (w : String) : Option ℚ :=
  match dget d "vocabulary" with
  | some (PyVal.table voc) =>
    match dget voc "nouns" with
    | some (PyVal.table cm) => (dget cm w).map PyVal.asNum
    | _ => none
  | _ => none

/-! ## Theorems

Shared helper lemmas first, then one theorem per claim (with its
counterexample and witness where required). -/

theorem dget_dset_ne {α : Type} (d : List (String × α)) (k k' : String) (v : α)
    (h : k ≠ k') : dget (dset d k' v) k = dget d k := by
  induction d with
  | nil => simp [dset, dget, Ne.symm h]
  | cons e rest ih =>
    obtain ⟨ek, ev⟩ := e
    by_cases he : ek = k'
    · subst he
      simp [dset, dget, Ne.symm h]
    · by_cases hk : ek = k
      · simp [dset, dget, he, hk, h]
      · simp [dset, dget, he, hk, ih]

theorem dget_dset_self {α : Type} (d : List (String × α)) (k : String) (v : α) :
    dget (dset d k v) k = some v := by
  induction d with
  | nil => simp [dset, dget]
  | cons e rest ih =>
    obtain ⟨ek, ev⟩ := e
    by_cases he : ek = k
    · simp [dset, dget, he]
    · simp [dset, dget, he, ih]


/-- Python's `max(counts, key=counts.get)` over the four-signature dict,
rewritten as the explicit earliest-maximum tie-break. -/
theorem pyMaxKey_four (n a v i : Nat) :
    (if max (max n a) (max v i) = 0 then "nature"
     else pyMaxKey [("nature", n), ("apa", a), ("vancouver", v), ("ieee", i)]) =
    (if a ≤ n ∧ v ≤ n ∧ i ≤ n then "nature"
     else if v ≤ a ∧ i ≤ a then "apa"
     else if i ≤ v then "vancouver"
     else "ieee") := by
  simp only [pyMaxKey, List.foldl]
  split_ifs <;> simp_all <;> omega

/-- `_determine_reference_format` returns the first signature of
`[nature, apa, vancouver, ieee]` whose line count is maximal. -/
theorem refFormat_eq_amended (t : List Char) :
    _determine_reference_format t = refFormatAmended t := by
  unfold _determine_reference_format refFormatAmended
  exact pyMaxKey_four _ _ _ _

/-- The explicit tie-break always names a signature of maximal count. -/
theorem formatCount_max_four (n a v i : Nat) :
    formatCount (n, a, v, i)
      (if a ≤ n ∧ v ≤ n ∧ i ≤ n then "nature"
       else if v ≤ a ∧ i ≤ a then "apa"
       else if i ≤ v then "vancouver" else "ieee") =
    max (max n a) (max v i) := by
  split_ifs <;> simp [formatCount] <;> omega

/-- The returned signature's line count is the maximum count. -/
theorem refFormat_count_max (t : List Char) :
    formatCount (refFormatCounts t) (_determine_reference_format t) =
      max (max (refFormatCounts t).1 (refFormatCounts t).2.1)
        (max (refFormatCounts t).2.2.1 (refFormatCounts t).2.2.2) := by
  rw [refFormat_eq_amended]
  unfold refFormatAmended
  exact formatCount_max_four _ _ _ _

/-- C8 counterexample: one APA-shaped line and one Vancouver-shaped line tie
at one match each; the code returns `"apa"`, not the `"nature"` the claim's
tie rule names. -/
theorem c8_tie_returns_apa_not_nature :
    _determine_reference_format t8 = "apa" ∧ refFormatClaimSpec t8 = "nature" ∧
      refFormatCounts t8 = (0, 1, 1, 0) := by
  refine ⟨by decide, by decide, by decide⟩

/-- C8 (amended): `_determine_reference_format` returns a format whose
signature matches a maximal number of lines, but a tie is broken by the fixed
order `nature`, `apa`, `vancouver`, `ieee` — `"nature"` wins only the ties it
takes part in (and the no-match case), not every tie. -/
theorem c8_most_matching_lines_first_key_tiebreak (t : List Char) :
    _determine_reference_format t = refFormatAmended t ∧
      formatCount (refFormatCounts t) (_determine_reference_format t) =
        max (max (refFormatCounts t).1 (refFormatCounts t).2.1)
          (max (refFormatCounts t).2.2.1 (refFormatCounts t).2.2.2) :=
  ⟨refFormat_eq_amended t, refFormat_count_max t⟩

/-- C10: on every input string — empty and whitespace-only included — the
embedded `_determine_reference_format` is total (it is a Lean function, so
it terminates and raises nothing) and returns one of exactly the four format
names. -/
theorem c10_reference_format_total (s : List Char) :
    _determine_reference_format s = "nature" ∨
      _determine_reference_format s = "apa" ∨
      _determine_reference_format s = "vancouver" ∨
      _determine_reference_format s = "ieee" := by
  rw [refFormat_eq_amended]
  unfold refFormatAmended
  generalize refFormatCounts s = c
  obtain ⟨n, a, v, i⟩ := c
  dsimp only
  split_ifs <;> simp

/-- A fold whose every step leaves the lookup of `k` unchanged leaves it
unchanged. -/
theorem dget_foldl_preserve {β : Type} (f : PyDict → β → PyDict) (l : List β)
    (k : String) (h : ∀ m b, dget (f m b) k = dget m k) :
    ∀ m, dget (l.foldl f m) k = dget m k := by
  induction l with
  | nil => intro m; rfl
  | cons b rest ih => intro m; rw [List.foldl_cons, ih, h]

theorem dget_updVocabWord (m : PyDict) (cat word : String) (freq : ℚ)
    (k : String) (h : k ≠ "vocabulary") :
    dget (updVocabWord m cat word freq) k = dget m k := by
  unfold updVocabWord
  exact dget_dset_ne _ _ _ _ h

theorem dget_mergeVocab (m cr : PyDict) (k : String) (h : k ≠ "vocabulary") :
    dget (mergeVocab m cr) k = dget m k := by
  unfold mergeVocab
  refine dget_foldl_preserve _ _ _ (fun m cat => ?_) m
  dsimp only
  cases dget (((dget cr "vocabulary").getD (.table [])).asTable) cat with
  | none => rfl
  | some catv =>
    exact dget_foldl_preserve _ _ _ (fun m kv => dget_updVocabWord _ _ _ _ _ h) m

theorem dget_appendInnerKey (m : PyDict) (outer key : String) (v : PyVal)
    (k : String) (h : k ≠ outer) :
    dget (appendInnerKey m outer key v) k = dget m k := by
  unfold appendInnerKey
  exact dget_dset_ne _ _ _ _ h

theorem dget_mergeSentStruct (m cr : PyDict) (k : String)
    (h : k ≠ "sentence_structure") :
    dget (mergeSentStruct m cr) k = dget m k := by
  unfold mergeSentStruct
  exact dget_foldl_preserve _ _ _ (fun m kv => dget_appendInnerKey _ _ _ _ _ h) m


theorem dget_meanUpd (m : PyDict) (key : String) (vOpt : Option PyVal)
    (k : String) (h : k ≠ key) : dget (meanUpd m key vOpt) k = dget m k := by
  unfold meanUpd
  cases vOpt with
  | none => rfl
  | some v =>
    cases v with
    | num q => exact dget_dset_ne _ _ _ _ h
    | arr l =>
      by_cases hl : l.isEmpty <;> simp [hl, dget_dset_ne _ _ _ _ h]
    | table t => rfl

theorem dget_flattenMerged (m : PyDict) (k : String)
    (h4 : k ≠ "nouns") (h5 : k ≠ "verbs") (h6 : k ≠ "adjectives")
    (h7 : k ≠ "adverbs") (h8 : k ≠ "avg_sentence_length")
    (h9 : k ≠ "passive_voice_ratio") :
    dget (flattenMerged m) k = dget m k := by
  unfold flattenMerged
  dsimp only
  rw [dget_meanUpd _ _ _ _ h9, dget_meanUpd _ _ _ _ h8,
      dget_dset_ne _ _ _ _ h7, dget_dset_ne _ _ _ _ h6,
      dget_dset_ne _ _ _ _ h5, dget_dset_ne _ _ _ _ h4]

theorem dget_mergeStylistic (m cr : PyDict) (k : String)
    (h : k ≠ "stylistic_features") :
    dget (mergeStylistic m cr) k = dget m k := by
  unfold mergeStylistic
  exact dget_foldl_preserve _ _ _ (fun m kv => dget_appendInnerKey _ _ _ _ _ h) m

/-- `_merge_chunk_results` only ever writes the nine fixed top-level keys. -/
theorem dget_merge_chunk_results (m cr : PyDict) (k : String)
    (h1 : k ≠ "vocabulary") (h2 : k ≠ "sentence_structure")
    (h3 : k ≠ "stylistic_features") (h4 : k ≠ "nouns") (h5 : k ≠ "verbs")
    (h6 : k ≠ "adjectives") (h7 : k ≠ "adverbs")
    (h8 : k ≠ "avg_sentence_length") (h9 : k ≠ "passive_voice_ratio") :
    dget (_merge_chunk_results m cr) k = dget m k := by
  unfold _merge_chunk_results
  rw [dget_mergeStylistic _ _ _ h3,
      dget_flattenMerged _ _ h4 h5 h6 h7 h8 h9,
      dget_mergeSentStruct _ _ _ h2, dget_mergeVocab _ _ _ h1]

theorem dget_processChunk (env : NlpEnv) (sect : String) (m : PyDict)
    (chunk : List Char) (k : String)
    (h1 : k ≠ "vocabulary") (h2 : k ≠ "sentence_structure")
    (h3 : k ≠ "stylistic_features") (h4 : k ≠ "nouns") (h5 : k ≠ "verbs")
    (h6 : k ≠ "adjectives") (h7 : k ≠ "adverbs")
    (h8 : k ≠ "avg_sentence_length") (h9 : k ≠ "passive_voice_ratio") :
    dget (processChunk env sect m chunk) k = dget m k := by
  unfold processChunk
  cases env.nlp (String.mk chunk) with
  | ok doc => exact dget_merge_chunk_results _ _ _ h1 h2 h3 h4 h5 h6 h7 h8 h9
  | error e =>
    by_cases hlen : chunk.length > 10000
    · simp only [hlen, if_pos]
      refine dget_foldl_preserve _ _ _ (fun m sc => ?_) m
      cases env.nlp (String.mk sc) with
      | ok doc => exact dget_merge_chunk_results _ _ _ h1 h2 h3 h4 h5 h6 h7 h8 h9
      | error e2 => rfl
    · simp only [hlen, if_neg, not_false_iff]

/-- The dict returned by `analyze_text` never carries any key other than the
nine that `merged_result` accumulates; in particular `"transition_counts"`
(and the other statistics the dead code after `return` would have produced)
is always absent. -/
theorem dget_analyze_text_none (env : NlpEnv) (text : String) (sect k : String)
    (h1 : k ≠ "vocabulary") (h2 : k ≠ "sentence_structure")
    (h3 : k ≠ "stylistic_features") (h4 : k ≠ "nouns") (h5 : k ≠ "verbs")
    (h6 : k ≠ "adjectives") (h7 : k ≠ "adverbs")
    (h8 : k ≠ "avg_sentence_length") (h9 : k ≠ "passive_voice_ratio") :
    dget (analyze_text env text sect) k = none := by
  unfold analyze_text
  by_cases hs : pyStrip text.data = []
  · simp [hs, dget]
  · simp only [hs, if_neg, not_false_iff]
    rw [dget_foldl_preserve _ _ _
      (fun m c => dget_processChunk env sect m c k h1 h2 h3 h4 h5 h6 h7 h8 h9)]
    simp [merged0, dget, Ne.symm h1, Ne.symm h2, Ne.symm h3]

theorem sectionStep_transitions (env : NlpEnv) (acc : PapersAcc)
    (sv : String × List Char) :
    (sectionStep env acc sv).all_transitions = acc.all_transitions := by
  unfold sectionStep
  split
  · rfl
  · dsimp only
    rw [dget_analyze_text_none env (String.mk sv.2) sv.1 "transition_counts"
        (by decide) (by decide) (by decide) (by decide) (by decide) (by decide)
        (by decide) (by decide) (by decide)]
    simp [valToCounter, PyVal.asTable, apply_ite PapersAcc.all_transitions]

theorem foldl_sectionStep_transitions (env : NlpEnv)
    (sections : List (String × List Char)) :
    ∀ acc : PapersAcc,
      (sections.foldl (sectionStep env) acc).all_transitions =
        acc.all_transitions := by
  induction sections with
  | nil => intro acc; rfl
  | cons s rest ih =>
    intro acc
    rw [List.foldl_cons, ih, sectionStep_transitions]

theorem papersLoop_ok_transitions (env : NlpEnv) :
    ∀ (papers : List PaperPath) (acc r : PapersAcc),
      papersLoop env papers acc = .ok r →
      r.all_transitions = acc.all_transitions := by
  intro papers
  induction papers with
  | nil =>
    intro acc r h
    simp only [papersLoop] at h
    cases h
    rfl
  | cons p rest ih =>
    intro acc r h
    unfold papersLoop at h
    cases hx : extract_text_from_pdf p with
    | error e => rw [hx] at h; cases h
    | ok secs =>
      rw [hx] at h
      rw [ih _ _ h, foldl_sectionStep_transitions]

theorem extract_error_of_unsupported (p : PaperPath)
    (h : loadFullText p = none) :
    extract_text_from_pdf p = .error ("不支持的文件格式: " ++ p.suffix) := by
  simp [extract_text_from_pdf, h]

theorem papersLoop_error_of_bad (env : NlpEnv) :
    ∀ (papers : List PaperPath) (acc : PapersAcc),
      (∃ p, p ∈ papers ∧ loadFullText p = none) →
      ∃ e, papersLoop env papers acc = .error e := by
  intro papers
  induction papers with
  | nil =>
    rintro acc ⟨p, hp, -⟩
    cases hp
  | cons q rest ih =>
    rintro acc ⟨p, hp, hbad⟩
    rcases List.mem_cons.mp hp with rfl | hmem
    · refine ⟨"不支持的文件格式: " ++ p.suffix, ?_⟩
      simp [papersLoop, extract_error_of_unsupported p hbad]
    · cases hx : extract_text_from_pdf q with
      | error e => exact ⟨e, by simp [papersLoop, hx]⟩
      | ok secs =>
        obtain ⟨e, he⟩ := ih (secs.foldl (sectionStep env) acc) ⟨p, hmem, hbad⟩
        exact ⟨e, by simp [papersLoop, hx, he]⟩

theorem buildReport_citation (jn : String) (n : Nat) (acc : PapersAcc) :
    (buildReport jn n acc).citation_style = {} := rfl

theorem buildReport_transition_words (jn : String) (n : Nat) (acc : PapersAcc)
    (h : acc.all_transitions = []) :
    (buildReport jn n acc).transition_words = [] := by
  simp [buildReport, h]

theorem c1_counterexample :
    analyze_papers env0 [badDoc, cdoc] "J" =
      .error ("不支持的文件格式: " ++ badDoc.suffix) ∧
    (analyze_papers_catch_spec env0 [badDoc, cdoc] "J").papers_analyzed = 2 := by
  exact ⟨rfl, by decide⟩

/-- C1 (amended): the effective `analyze_papers` (the second definition of
that name, which shadows the first) has no try/except around its per-paper
loop, so a paper whose loader fails — e.g. an unsupported file extension —
makes the whole call return an error instead of being skipped and logged. -/
theorem c1_amended (env : NlpEnv) (papers : List PaperPath) (jn : String)
    (h : ∃ p, p ∈ papers ∧ loadFullText p = none) :
    ∃ e, analyze_papers env papers jn = .error e := by
  obtain ⟨e, he⟩ := papersLoop_error_of_bad env papers {} h
  exact ⟨e, by simp [analyze_papers, he]⟩

theorem c1_witness :
    (∃ p, p ∈ [cdoc, badDoc] ∧ loadFullText p = none) ∧
      ∃ e, analyze_papers env0 [cdoc, badDoc] "J" = .error e := by
  have h : ∃ p, p ∈ [cdoc, badDoc] ∧ loadFullText p = none :=
    ⟨badDoc, by simp, by decide⟩
  exact ⟨h, c1_amended env0 [cdoc, badDoc] "J" h⟩

/-- C2 (amended): every successful report carries the default
`citation_style` (the structure default, `author-year`/`nature`): the
effective `analyze_papers` never aggregates per-document citation styles
into the report, so no most-frequent-pair vote takes place. -/
theorem c2_amended (env : NlpEnv) (papers : List PaperPath) (jn : String)
    (r : JournalStyleReport) (h : analyze_papers env papers jn = .ok r) :
    r.citation_style = {} := by
  unfold analyze_papers at h
  cases hx : papersLoop env papers {} with
  | error e => rw [hx] at h; cases h
  | ok acc =>
    rw [hx] at h
    cases h
    exact buildReport_citation jn papers.length acc

set_option maxRecDepth 10000 in
theorem c2_counterexample :
    (analyze_papers env0 [cdoc] "J").toOption.map
        (fun r => (r.citation_style.citation_type,
                   r.citation_style.reference_format)) =
      some ("author-year", "nature") ∧
    firstSeenMostCommon ([cdoc].map citationPair) = some ("numbered", "nature") ∧
    ("author-year", "nature") ≠ (("numbered", "nature") : String × String) := by
  refine ⟨by decide, by decide, by decide⟩

set_option maxRecDepth 10000 in
theorem c2_witness :
    (analyze_papers env0 [cdoc] "J").toOption.map
      JournalStyleReport.citation_style = some {} := by
  have hsome : (analyze_papers env0 [cdoc] "J").toOption.isSome = true := by decide
  cases h : analyze_papers env0 [cdoc] "J" with
  | error e => rw [h] at hsome; simp [Except.toOption] at hsome
  | ok r =>
    simp [Except.toOption, c2_amended env0 [cdoc] "J" r h]

/-- C3 (amended): the transition-word counting in `analyze_text` sits after
a `return` statement and is dead code: the analysis dict never holds a
`transition_counts` key, and every successful report's `transition_words`
is the empty list. -/
theorem c3_amended :
    (∀ (env : NlpEnv) (text : String) (sect : String),
      dget (analyze_text env text sect) "transition_counts" = none) ∧
    (∀ (env : NlpEnv) (papers : List PaperPath) (jn : String)
      (r : JournalStyleReport),
      analyze_papers env papers jn = .ok r → r.transition_words = []) := by
  constructor
  · intro env text sect
    exact dget_analyze_text_none env text sect "transition_counts"
      (by decide) (by decide) (by decide) (by decide) (by decide) (by decide)
      (by decide) (by decide) (by decide)
  · intro env papers jn r h
    unfold analyze_papers at h
    cases hx : papersLoop env papers {} with
    | error e => rw [hx] at h; cases h
    | ok acc =>
      rw [hx] at h
      cases h
      exact buildReport_transition_words jn papers.length acc
        (papersLoop_ok_transitions env papers {} acc hx)

set_option maxRecDepth 10000 in
theorem c3_counterexample :
    (dget (analyze_text env0 T1 "introduction") "transition_counts").isNone = true ∧
    (analyze_papers env0 [t1doc] "J").toOption.map
      JournalStyleReport.transition_words = some [] ∧
    pyCount "however".data (lowerCL T1.data) = 1 := by
  refine ⟨by decide, by decide, by decide⟩

set_option maxRecDepth 10000 in
theorem c3_witness :
    analyze_papers env0 [t1doc] "J" ≠ .error "" ∧
    (analyze_papers env0 [t1doc] "J").toOption.map
      JournalStyleReport.transition_words = some [] := by
  have hsome : (analyze_papers env0 [t1doc] "J").toOption.isSome = true := by decide
  constructor
  · intro hc
    rw [hc] at hsome
    simp [Except.toOption] at hsome
  · cases h : analyze_papers env0 [t1doc] "J" with
    | error e => rw [h] at hsome; simp [Except.toOption] at hsome
    | ok r =>
      simp [Except.toOption, c3_amended.2 env0 [t1doc] "J" r h]

theorem foldl_filterMap_nlp (env : NlpEnv) (sect : String) :
    ∀ (l : List (List Char)) (m : PyDict),
      ((l.filterMap (fun sc =>
        match env.nlp (String.mk sc) with
        | .ok doc => some (_analyze_chunk env doc sect)
        | .error _ => none)).foldl _merge_chunk_results m) =
      l.foldl (fun m sc =>
        match env.nlp (String.mk sc) with
        | .ok doc => _merge_chunk_results m (_analyze_chunk env doc sect)
        | .error _ => m) m := by
  intro l
  induction l with
  | nil => intro m; rfl
  | cons sc rest ih =>
    intro m
    cases hx : env.nlp (String.mk sc) with
    | ok doc => simp [List.filterMap_cons, hx, List.foldl_cons, ih]
    | error e => simp [List.filterMap_cons, hx, ih]

theorem processChunk_eq_contribs (env : NlpEnv) (sect : String) (m : PyDict)
    (chunk : List Char) :
    processChunk env sect m chunk =
      (chunkContribs env sect chunk).foldl _merge_chunk_results m := by
  simp only [processChunk, chunkContribs]
  cases env.nlp (String.mk chunk) with
  | ok doc => rw [List.foldl_cons, List.foldl_nil]
  | error e =>
    by_cases hl : chunk.length > 10000
    · rw [if_pos hl, if_pos hl]
      exact (foldl_filterMap_nlp env sect _ m).symm
    · rw [if_neg hl, if_neg hl, List.foldl_nil]

theorem foldl_flatMap_contribs (env : NlpEnv) (sect : String) :
    ∀ (chunks : List (List Char)) (m : PyDict),
      chunks.foldl (processChunk env sect) m =
        (chunks.flatMap (chunkContribs env sect)).foldl _merge_chunk_results m := by
  intro chunks
  induction chunks with
  | nil => intro m; rfl
  | cons c rest ih =>
    intro m
    rw [List.foldl_cons, ih, List.flatMap_cons, List.foldl_append,
        processChunk_eq_contribs]

/-- C4 (amended): `analyze_text` equals the degraded-retry formulation in
which a chunk whose NLP call fails is re-chunked only when it is longer
than 10000 characters (with `_create_smaller_chunks(chunk, 5000)`, a bound
counted in words), failing sub-chunks are skipped, a failing short chunk
contributes nothing, and the run is never aborted. -/
theorem c4_amended (env : NlpEnv) (text : String) (sect : String) :
    analyze_text env text sect = analyze_text_degraded_spec env text sect := by
  unfold analyze_text analyze_text_degraded_spec
  by_cases hs : pyStrip text.data = []
  · rw [if_pos hs, if_pos hs]
  · rw [if_neg hs, if_neg hs]
    exact foldl_flatMap_contribs env sect _ merged0

theorem c4_counterexample :
    (vocabNounCount (analyze_text env2 "a\n\nb" "general")
      "photosynthesis").isSome = false ∧
    (vocabNounCount (analyze_text_retry_spec env2 "a\n\nb" "general")
      "photosynthesis").isSome = true ∧
    ("a\n\nb" : String).length ≤ 10000 := by
  refine ⟨by decide, by decide, by decide⟩

/-! Helper lemmas about `pyStrip`, `pySplitPar` and `occursIn`. -/

theorem pyStripRight_eq_append (l : List Char) :
    ∃ t, pyStripRight l ++ t = l ∧ ∀ c ∈ t, isPySpace c = true := by
  refine ⟨(l.reverse.takeWhile isPySpace).reverse, ?_, ?_⟩
  · show (List.dropWhile isPySpace l.reverse).reverse ++
        (List.takeWhile isPySpace l.reverse).reverse = l
    rw [← List.reverse_append, List.takeWhile_append_dropWhile,
      List.reverse_reverse]
  · intro c hc
    rw [List.mem_reverse] at hc
    exact List.mem_takeWhile_imp hc

theorem length_pyStripRight_le (l : List Char) :
    (pyStripRight l).length ≤ l.length := by
  obtain ⟨t, ht, -⟩ := pyStripRight_eq_append l
  calc (pyStripRight l).length ≤ (pyStripRight l).length + t.length := Nat.le_add_right _ _
    _ = l.length := by rw [← List.length_append, ht]

theorem length_dropWhile_le_self (p : Char → Bool) (l : List Char) :
    (l.dropWhile p).length ≤ l.length := by
  induction l with
  | nil => exact Nat.le_refl _
  | cons c rest ih =>
    rw [List.dropWhile_cons]
    split
    · exact Nat.le_trans ih (Nat.le_succ _)
    · exact Nat.le_refl _

theorem length_pyStrip_le (l : List Char) : (pyStrip l).length ≤ l.length := by
  calc (pyStrip l).length ≤ (pyStripRight l).length := by
        unfold pyStrip
        exact length_dropWhile_le_self _ _
    _ ≤ l.length := length_pyStripRight_le l

theorem dropWhile_append_of_space (l₁ l₂ : List Char)
    (h : ∀ c ∈ l₁, isPySpace c = true) :
    (l₁ ++ l₂).dropWhile isPySpace = l₂.dropWhile isPySpace := by
  induction l₁ with
  | nil => rfl
  | cons c rest ih =>
    have hc : isPySpace c = true := h c (List.mem_cons_self c rest)
    simp only [List.cons_append, List.dropWhile_cons, hc, if_pos]
    exact ih (fun x hx => h x (List.mem_cons_of_mem c hx))

theorem pyStripRight_append_space (l ws : List Char)
    (h : ∀ c ∈ ws, isPySpace c = true) :
    pyStripRight (l ++ ws) = pyStripRight l := by
  unfold pyStripRight
  rw [List.reverse_append, dropWhile_append_of_space]
  intro c hc
  exact h c (List.mem_reverse.mp hc)

theorem pyStrip_append_parSep (l : List Char) :
    pyStrip (l ++ parSep) = pyStrip l := by
  unfold pyStrip
  rw [pyStripRight_append_space]
  intro c hc
  simp only [parSep, List.mem_cons, List.not_mem_nil, or_false] at hc
  rcases hc with rfl | rfl <;> rfl

theorem extractLoop_cons_eq (text : List Char) (start : Nat) (name : String)
    (hdr : List Char) (rest : List SectStart) (d : List (String × List Char)) :
    extractLoop text ((start, name, hdr) :: rest) d =
      extractLoop text rest
        (let cfg := (dget SECTION_DEFINITIONS name).getD ⟨[], []⟩
         let end0 :=
           match rest.find? (fun e => decide (start < e.1)) with
           | some e => e.1
           | none => text.length
         let end1 :=
           match firstSearchStart flagsI cfg.end_patterns (sliceCL text start end0) with
           | some ms => start + ms
           | none => end0
         let content := pyStrip (sliceCL text start end1)
         if content ≠ [] ∧ 50 < content.length then dset d name content else d) := rfl

theorem extractLoop_dget_untouched (text : List Char) (k : String) :
    ∀ rest d, (∀ e ∈ rest, e.2.1 ≠ k) →
      dget (extractLoop text rest d) k = dget d k := by
  intro rest
  induction rest with
  | nil => intro d _; rfl
  | cons s rest ih =>
    intro d hall
    obtain ⟨start, name, hdr⟩ := s
    rw [extractLoop_cons_eq]
    rw [ih _ (fun e he => hall e (List.mem_cons_of_mem _ he))]
    dsimp only
    split
    · exact dget_dset_ne d k name _ (Ne.symm (hall _ (List.mem_cons_self _ _)))
    · rfl

/-- C5 (amended): with a `results` start at offset `p` followed only by a
`discussion` start at `q` and no end-pattern match in between, the stored
`results` text is the stripped slice from `p` — the start of the "Results"
heading itself — up to (strictly before) `q`: the heading is included, the
body does not begin after it. -/
theorem c5_amended (text : List Char) (p q : Nat) (h1 h2 : List Char)
    (hm : mergedStarts text = [(p, "results", h1), (q, "discussion", h2)])
    (hpq : p < q)
    (hend : firstSearchStart flagsI
      ((dget SECTION_DEFINITIONS "results").getD ⟨[], []⟩).end_patterns
      (sliceCL text p q) = none)
    (hlen : 50 < (pyStrip (sliceCL text p q)).length) :
    dget (extract_sections text) "results" = some (pyStrip (sliceCL text p q)) := by
  have hne : pyStrip (sliceCL text p q) ≠ [] := by
    intro hz
    rw [hz] at hlen
    exact absurd hlen (by simp)
  unfold extract_sections
  rw [hm, extractLoop_cons_eq]
  rw [List.find?_cons_of_pos _ (by simpa using hpq)]
  dsimp only
  rw [hend]
  dsimp only
  rw [if_pos ⟨hne, hlen⟩]
  rw [extractLoop_dget_untouched text "results" [(q, "discussion", h2)]
    (dset [] "results" (pyStrip (sliceCL text p q)))
    (by intro e he
        have := List.mem_singleton.mp he
        subst this
        show ("discussion" : String) ≠ "results"
        decide)]
  exact dget_dset_self [] "results" _

set_option maxRecDepth 10000 in
theorem c5_counterexample :
    dget (extract_sections t5) "results" = some resultsFull5 ∧
    startsWithCL ("Results".data) resultsFull5 = true ∧
    ¬dget (extract_sections t5) "results" = some bodyOnly5 :=
  ⟨by decide, by decide, by decide⟩

set_option maxRecDepth 10000 in
theorem c5_witness :
    mergedStarts t5 =
      [(0, "results", "Results\n".data), (63, "discussion", "\nDiscussion\n".data)] ∧
    (0 : Nat) < 63 ∧
    firstSearchStart flagsI
      ((dget SECTION_DEFINITIONS "results").getD ⟨[], []⟩).end_patterns
      (sliceCL t5 0 63) = none ∧
    50 < (pyStrip (sliceCL t5 0 63)).length ∧
    dget (extract_sections t5) "results" = some (pyStrip (sliceCL t5 0 63)) :=
  ⟨by decide, by decide, by decide, by decide,
    c5_amended t5 0 63 "Results\n".data "\nDiscussion\n".data (by decide)
      (by decide) (by decide) (by decide)⟩

theorem mem_foldl_of_step {α β : Type} (g : List β → α → List β) (P : α → β → Prop)
    (hg : ∀ acc it x, x ∈ g acc it → x ∈ acc ∨ P it x) :
    ∀ (l : List α) (acc : List β) (x : β),
      x ∈ l.foldl g acc → x ∈ acc ∨ ∃ it ∈ l, P it x := by
  intro l
  induction l with
  | nil => intro acc x h; exact Or.inl h
  | cons a l ih =>
    intro acc x h
    rcases ih (g acc a) x h with h' | ⟨it, hit, hp⟩
    · rcases hg acc a x h' with h'' | hp
      · exact Or.inl h''
      · exact Or.inr ⟨a, List.mem_cons_self a l, hp⟩
    · exact Or.inr ⟨it, List.mem_cons_of_mem a hit, hp⟩

theorem SECTION_DEFINITIONS_keys : SECTION_DEFINITIONS.map Prod.fst = tenKinds := rfl

theorem sectionStartsRaw_names (text : List Char) :
    ∀ e ∈ sectionStartsRaw text, e.2.1 ∈ tenKinds := by
  intro e he
  unfold sectionStartsRaw at he
  have hstep : ∀ (acc : List SectStart) (nc : String × SectionConfig) (x : SectStart),
      x ∈ nc.2.patterns.foldl (fun acc2 pat =>
        acc2 ++ (reFinditer flagsIM pat text).map
          (fun m => (m.1, nc.1, sliceCL text m.1 (m.1 + m.2.1)))) acc →
      x ∈ acc ∨ x.2.1 = nc.1 := by
    intro acc nc x hx
    rcases mem_foldl_of_step _ (fun _ (y : SectStart) => y.2.1 = nc.1)
      (by intro acc2 pat y hy
          rcases List.mem_append.mp hy with h | h
          · exact Or.inl h
          · right
            obtain ⟨m, _, rfl⟩ := List.mem_map.mp h
            rfl) nc.2.patterns acc x hx with h | ⟨pat, _, hp⟩
    · exact Or.inl h
    · exact Or.inr hp
  rcases mem_foldl_of_step _ (fun (nc : String × SectionConfig) x => x.2.1 = nc.1)
    hstep SECTION_DEFINITIONS [] e he with h | ⟨nc, hnc, hp⟩
  · cases h
  · rw [hp, ← SECTION_DEFINITIONS_keys]
    exact List.mem_map_of_mem Prod.fst hnc

theorem mem_insertByOffset (x y : SectStart) :
    ∀ l, y ∈ insertByOffset x l → y = x ∨ y ∈ l := by
  intro l
  induction l with
  | nil =>
    intro h
    exact Or.inl (List.mem_singleton.mp h)
  | cons z zs ih =>
    intro h
    simp only [insertByOffset] at h
    split at h
    · rcases List.mem_cons.mp h with rfl | h'
      · exact Or.inr (List.mem_cons_self _ _)
      · rcases ih h' with h'' | h''
        · exact Or.inl h''
        · exact Or.inr (List.mem_cons_of_mem _ h'')
    · rcases List.mem_cons.mp h with rfl | h'
      · exact Or.inl rfl
      · exact Or.inr h'

theorem mergedStarts_names (text : List Char) :
    ∀ e ∈ mergedStarts text, e.2.1 ∈ tenKinds := by
  intro e he
  unfold mergedStarts mergeStarts at he
  rcases mem_foldl_of_step _ (fun (x y : SectStart) => y = x)
    (by intro acc it y hy
        split at hy
        · split at hy
          · exact Or.inl hy
          · rcases List.mem_append.mp hy with h | h
            · exact Or.inl h
            · exact Or.inr (List.mem_singleton.mp h)
        · rcases List.mem_append.mp hy with h | h
          · exact Or.inl h
          · exact Or.inr (List.mem_singleton.mp h))
    (sortStarts (sectionStartsRaw text)) [] e he with h | ⟨x, hx, hex⟩
  · cases h
  · rw [hex]
    unfold sortStarts at hx
    rcases mem_foldl_of_step _ (fun (z y : SectStart) => y = z)
      (by intro acc it y hy
          rcases mem_insertByOffset it y acc hy with h | h
          · exact Or.inr h
          · exact Or.inl h)
      (sectionStartsRaw text) [] x hx with h | ⟨z, hz, hxz⟩
    · cases h
    · rw [hxz]
      exact sectionStartsRaw_names text z hz

theorem dset_keys_cases {α : Type} (d : List (String × α)) (k : String) (v : α) :
    (dset d k v).map Prod.fst = d.map Prod.fst ∨
    ((dset d k v).map Prod.fst = d.map Prod.fst ++ [k] ∧ k ∉ d.map Prod.fst) := by
  induction d with
  | nil =>
    right
    exact ⟨rfl, by simp⟩
  | cons e rest ih =>
    obtain ⟨ek, ev⟩ := e
    by_cases he : ek = k
    · left
      simp [dset, he]
    · rcases ih with h | ⟨h, hk⟩
      · left
        simp [dset, he, h]
      · right
        constructor
        · simp [dset, he, h]
        · simp only [List.map_cons, List.mem_cons]
          rintro (h' | h')
          · exact he h'.symm
          · exact hk h'

theorem mem_dset {α : Type} (d : List (String × α)) (k : String) (v : α) :
    ∀ kv ∈ dset d k v, kv ∈ d ∨ kv.1 = k := by
  induction d with
  | nil =>
    intro kv hkv
    right
    rw [List.mem_singleton.mp hkv]
  | cons e rest ih =>
    obtain ⟨ek, ev⟩ := e
    intro kv hkv
    by_cases he : ek = k
    · simp only [dset, if_pos he] at hkv
      rcases List.mem_cons.mp hkv with rfl | h
      · exact Or.inr rfl
      · exact Or.inl (List.mem_cons_of_mem _ h)
    · simp only [dset, if_neg he] at hkv
      rcases List.mem_cons.mp hkv with rfl | h
      · exact Or.inl (List.mem_cons_self _ _)
      · rcases ih kv h with h' | h'
        · exact Or.inl (List.mem_cons_of_mem _ h')
        · exact Or.inr h'

theorem dset_keys_nodup {α : Type} (d : List (String × α)) (k : String) (v : α)
    (h : (d.map Prod.fst).Nodup) : ((dset d k v).map Prod.fst).Nodup := by
  rcases dset_keys_cases d k v with h' | ⟨h', hk⟩
  · rw [h']; exact h
  · rw [h']
    simp only [List.nodup_append, List.nodup_cons, List.not_mem_nil,
      not_false_iff, List.nodup_nil, and_true, true_and]
    refine ⟨h, ?_⟩
    intro a ha hb
    rw [List.mem_singleton.mp hb] at ha
    exact hk ha

theorem extractLoop_keys (text : List Char) :
    ∀ (rest : List SectStart) (d : List (String × List Char)),
      (∀ e ∈ rest, e.2.1 ∈ tenKinds) →
      ((d.map Prod.fst).Nodup ∧ ∀ kv ∈ d, kv.1 ∈ tenKinds) →
      ((extractLoop text rest d).map Prod.fst).Nodup ∧
        ∀ kv ∈ extractLoop text rest d, kv.1 ∈ tenKinds := by
  intro rest
  induction rest with
  | nil => intro d _ hd; exact hd
  | cons s rest ih =>
    intro d hall hd
    obtain ⟨start, name, hdr⟩ := s
    have hname : name ∈ tenKinds := hall _ (List.mem_cons_self _ _)
    rw [extractLoop_cons_eq]
    apply ih _ (fun e he => hall e (List.mem_cons_of_mem _ he))
    dsimp only
    split
    · constructor
      · exact dset_keys_nodup d name _ hd.1
      · intro kv hkv
        rcases mem_dset d name _ kv hkv with h | h
        · exact hd.2 kv h
        · rw [h]; exact hname
    · exact hd

/-- C9 (amended): `extract_sections` returns at most 10 entries and every
key is one of the ten keys of `SECTION_DEFINITIONS` — the claim's nine
kinds plus `materials`. -/
theorem c9_amended (text : List Char) :
    (extract_sections text).length ≤ 10 ∧
    ∀ kv ∈ extract_sections text, kv.1 ∈ tenKinds := by
  have h := extractLoop_keys text (mergedStarts text) []
    (mergedStarts_names text) (by constructor <;> simp)
  constructor
  · have hsub : (extract_sections text).map Prod.fst ⊆ tenKinds := by
      intro k hk
      obtain ⟨kv, hkv, rfl⟩ := List.mem_map.mp hk
      exact h.2 kv hkv
    have hlen : ((extract_sections text).map Prod.fst).length ≤ tenKinds.length :=
      List.Subperm.length_le (List.subperm_of_subset h.1 hsub)
    simpa using hlen
  · exact h.2

set_option maxRecDepth 10000 in
theorem c9_counterexample :
    (extract_sections t9).map Prod.fst = ["materials"] ∧
    "materials" ∉ nineKinds :=
  ⟨by decide, by decide⟩


/-! Paragraph splitting, chunking and the join of the chunks. -/

theorem pySplitPar_ne_nil (s : List Char) : pySplitPar s ≠ [] := by
  induction s using pySplitPar.induct with
  | case1 => simp [pySplitPar]
  | case2 rest ih => simp [pySplitPar]
  | case3 c rest hg hx ih => simp [pySplitPar, hx]
  | case4 c rest hg h t hx ih => simp [pySplitPar, hx]

theorem pySplitPar_cons_eq (c : Char) (rest : List Char)
    (hg : ¬(c = '\n' ∧ rest.head? = some '\n')) :
    pySplitPar (c :: rest) =
      match pySplitPar rest with
      | [] => [[c]]
      | h :: t => (c :: h) :: t := by
  rw [pySplitPar.eq_def]
  split
  · rename_i heq
    cases heq
  · rename_i r heq
    exfalso
    apply hg
    have h1 : c = '\n' := by injection heq
    have h2 : rest = '\n' :: r := by
      injection heq with _ h2
    exact ⟨h1, by rw [h2]; rfl⟩
  · rename_i c' rest' hguard heq
    have h1 : c = c' := by injection heq
    have h2 : rest = rest' := by injection heq with _ h2
    subst h1
    subst h2
    rfl

theorem pySplitPar_head_shape (s : List Char) :
    (∃ t, pySplitPar s = [] :: t) ∨
    (∃ c h t, pySplitPar s = (c :: h) :: t ∧ s.head? = some c) := by
  cases s with
  | nil => exact Or.inl ⟨[], rfl⟩
  | cons c rest =>
    by_cases hc : c = '\n' ∧ rest.head? = some '\n'
    · obtain ⟨rfl, hr⟩ := hc
      obtain ⟨rest', rfl⟩ : ∃ rest', rest = '\n' :: rest' := by
        cases rest with
        | nil => cases hr
        | cons d rest' =>
          have : d = '\n' := by simpa using hr
          exact ⟨rest', by rw [this]⟩
      exact Or.inl ⟨pySplitPar rest', by simp [pySplitPar]⟩
    · rw [pySplitPar_cons_eq c rest hc]
      cases hx : pySplitPar rest with
      | nil => exact absurd hx (pySplitPar_ne_nil rest)
      | cons h t => exact Or.inr ⟨c, h, t, rfl, rfl⟩

theorem startsWithCL_parSep_cons (c : Char) (h : List Char) :
    startsWithCL parSep (c :: h) =
      (c = '\n' && startsWithCL ['\n'] h) := by
  simp [parSep, startsWithCL, @eq_comm Char '\n']

theorem pySplitPar_pieces (s : List Char) :
    ∀ piece ∈ pySplitPar s, occursIn parSep piece = false := by
  induction s using pySplitPar.induct with
  | case1 =>
    intro piece hp
    simp [pySplitPar] at hp
    subst hp
    rfl
  | case2 rest ih =>
    intro piece hp
    simp only [pySplitPar] at hp
    rcases List.mem_cons.mp hp with rfl | hmem
    · rfl
    · exact ih piece hmem
  | case3 c rest hg hx ih => exact absurd hx (pySplitPar_ne_nil rest)
  | case4 c rest hg h t hx ih =>
    intro piece hp
    simp only [pySplitPar, hx] at hp
    rcases List.mem_cons.mp hp with rfl | hmem
    · -- piece = c :: h, h the head piece of pySplitPar rest
      have hh : occursIn parSep h = false := ih h (by rw [hx]; exact List.mem_cons_self h t)
      have hsw : startsWithCL parSep (c :: h) = false := by
        rw [startsWithCL_parSep_cons]
        by_cases hcn : c = '\n'
        · subst hcn
          rw [show (decide ('\n' = '\n')) = true from rfl, Bool.true_and]
          rcases pySplitPar_head_shape rest with ⟨t', ht'⟩ | ⟨cw, hw, tw, htw, hhead⟩
          · rw [hx] at ht'
            have hh0 : h = ([] : List Char) := by injection ht'
            subst hh0
            rfl
          · rw [hx] at htw
            have hhw : h = cw :: hw := by injection htw
            subst hhw
            cases rest with
            | nil => cases hhead
            | cons d r =>
              have hdc : d = cw := by simpa using hhead
              have hdn : ¬(cw = '\n') := fun hd => hg r rfl (by rw [hdc, hd])
              have hne : ¬('\n' = cw) := fun hh2 => hdn (Eq.symm hh2)
              simp [startsWithCL, hne]
        · simp [hcn]
      simp [occursIn, hsw, hh]
    · refine ih piece ?_
      rw [hx]
      exact List.mem_cons_of_mem h hmem

theorem joinPar_cons_head (c : Char) (h : List Char) (t : List (List Char)) :
    joinPar ((c :: h) :: t) = c :: joinPar (h :: t) := by
  cases t with
  | nil => rfl
  | cons y t' => simp [joinPar]

theorem pySplitPar_join (s : List Char) : joinPar (pySplitPar s) = s := by
  induction s using pySplitPar.induct with
  | case1 => rfl
  | case2 rest ih =>
    show joinPar ([] :: pySplitPar rest) = '\n' :: '\n' :: rest
    cases hx : pySplitPar rest with
    | nil => exact absurd hx (pySplitPar_ne_nil rest)
    | cons h t =>
      rw [hx] at ih
      simp [joinPar, parSep, ih]
  | case3 c rest hg hx ih => exact absurd hx (pySplitPar_ne_nil rest)
  | case4 c rest hg h t hx ih =>
    show joinPar (pySplitPar (c :: rest)) = c :: rest
    rw [pySplitPar_cons_eq c rest (by rintro ⟨rfl, hr⟩; cases rest with
      | nil => cases hr
      | cons d r => exact hg r rfl (by rw [show d = '\n' from by simpa using hr])), hx]
    rw [joinPar_cons_head, ← hx, ih]

theorem occursIn_nil_pat (s : List Char) : occursIn [] s = true := by
  cases s <;> simp [occursIn, startsWithCL]

theorem startsWithCL_append_ext (pat s u : List Char)
    (h : startsWithCL pat s = true) : startsWithCL pat (s ++ u) = true := by
  induction pat generalizing s with
  | nil => simp [startsWithCL]
  | cons p ps ih =>
    cases s with
    | nil => cases h
    | cons c cs =>
      simp only [startsWithCL, Bool.and_eq_true, decide_eq_true_eq] at h
      simp only [List.cons_append, startsWithCL, Bool.and_eq_true,
        decide_eq_true_eq]
      exact ⟨h.1, ih cs h.2⟩

theorem occursIn_append_left (pat a b : List Char)
    (h : occursIn pat a = true) : occursIn pat (a ++ b) = true := by
  induction a with
  | nil =>
    have hp : pat = [] := by
      cases pat with
      | nil => rfl
      | cons p ps => cases h
    subst hp
    exact occursIn_nil_pat _
  | cons c cs ih =>
    simp only [occursIn, Bool.or_eq_true] at h
    simp only [List.cons_append, occursIn, Bool.or_eq_true]
    rcases h with h | h
    · exact Or.inl (startsWithCL_append_ext _ _ _ h)
    · exact Or.inr (ih h)

theorem occursIn_append_right (pat a b : List Char)
    (h : occursIn pat b = true) : occursIn pat (a ++ b) = true := by
  induction a with
  | nil => exact h
  | cons c cs ih =>
    simp only [List.cons_append, occursIn, Bool.or_eq_true]
    exact Or.inr ih

theorem occursIn_false_of_append_left (pat a b : List Char)
    (h : occursIn pat (a ++ b) = false) : occursIn pat a = false := by
  cases hx : occursIn pat a with
  | false => rfl
  | true => rw [occursIn_append_left pat a b hx] at h; cases h

theorem occursIn_false_of_append_right (pat a b : List Char)
    (h : occursIn pat (a ++ b) = false) : occursIn pat b = false := by
  cases hx : occursIn pat b with
  | false => rfl
  | true => rw [occursIn_append_right pat a b hx] at h; cases h

theorem occursIn_pyStrip_false (pat s : List Char)
    (h : occursIn pat s = false) : occursIn pat (pyStrip s) = false := by
  obtain ⟨t, ht, -⟩ := pyStripRight_eq_append s
  have h1 : occursIn pat (pyStripRight s) = false :=
    occursIn_false_of_append_left pat _ t (by rw [ht]; exact h)
  have h2 : (pyStripRight s).takeWhile isPySpace ++ pyStrip s = pyStripRight s := by
    show (pyStripRight s).takeWhile isPySpace ++
      (pyStripRight s).dropWhile isPySpace = pyStripRight s
    exact List.takeWhile_append_dropWhile isPySpace (pyStripRight s)
  exact occursIn_false_of_append_right pat _ _ (by rw [h2]; exact h1)

theorem chunkLoop_good (maxc : Nat) (ps : List (List Char)) :
    ∀ cur acc,
    (∀ p ∈ ps, occursIn parSep p = false) →
    ((pyStrip cur).length ≤ maxc ∨ occursIn parSep (pyStrip cur) = false) →
    (∀ c ∈ acc, c.length ≤ maxc ∨ occursIn parSep c = false) →
    ∀ c ∈ chunkLoop maxc ps cur acc,
      c.length ≤ maxc ∨ occursIn parSep c = false := by
  induction ps with
  | nil =>
    intro cur acc _ hcur hacc c hc
    simp only [chunkLoop] at hc
    split at hc
    · rcases List.mem_append.mp hc with h | h
      · exact hacc c h
      · have hce : c = pyStrip cur := List.mem_singleton.mp h
        subst hce
        exact hcur
    · exact hacc c hc
  | cons p ps ih =>
    intro cur acc hps hcur hacc c hc
    simp only [chunkLoop] at hc
    split at hc
    · rename_i hlt
      refine ih (cur ++ p ++ parSep) acc
        (fun q hq => hps q (List.mem_cons_of_mem p hq)) ?_ hacc c hc
      left
      rw [List.append_assoc, ← List.append_assoc, pyStrip_append_parSep]
      calc (pyStrip (cur ++ p)).length ≤ (cur ++ p).length := length_pyStrip_le _
        _ ≤ maxc := Nat.le_of_lt hlt
    · refine ih (p ++ parSep) _
        (fun q hq => hps q (List.mem_cons_of_mem p hq)) ?_ ?_ c hc
      · right
        rw [pyStrip_append_parSep]
        exact occursIn_pyStrip_false _ _ (hps p (List.mem_cons_self p ps))
      · intro d hd
        split at hd
        · rcases List.mem_append.mp hd with h | h
          · exact hacc d h
          · have hde : d = pyStrip cur := List.mem_singleton.mp h
            subst hde
            exact hcur
        · exact hacc d hd

/-- C6: every chunk returned by `_chunk_text_by_paragraphs` has length at
most `max_chars`, or else contains no paragraph separator `"\n\n"` — it is
a single indivisible paragraph exceeding the bound. -/
theorem c6_chunks_good (text : List Char) (maxc : Nat) :
    ∀ c ∈ _chunk_text_by_paragraphs text maxc,
      c.length ≤ maxc ∨ occursIn parSep c = false := by
  intro c hc
  unfold _chunk_text_by_paragraphs at hc
  split at hc
  · rename_i hle
    have hce : c = text := List.mem_singleton.mp hc
    subst hce
    exact Or.inl hle
  · exact chunkLoop_good maxc (pySplitPar text) [] []
      (pySplitPar_pieces text) (Or.inl (Nat.zero_le _)) (by simp) c hc

theorem chunkLoop_acc (maxc : Nat) (ps : List (List Char)) :
    ∀ cur acc, chunkLoop maxc ps cur acc = acc ++ chunkLoop maxc ps cur [] := by
  induction ps with
  | nil =>
    intro cur acc
    simp only [chunkLoop]
    split <;> simp
  | cons p ps ih =>
    intro cur acc
    simp only [chunkLoop]
    split
    · exact ih _ acc
    · rw [ih (p ++ parSep), ih (p ++ parSep) (if pyStrip cur ≠ [] then [] ++ [pyStrip cur] else [])]
      split <;> simp

theorem reverse_ne_nil_of_ne_nil (l : List Char) (h : l ≠ []) : l.reverse ≠ [] := by
  intro hr
  exact h (by simpa using congrArg List.reverse hr)

theorem pyStrip_fix_parts (p : List Char) (h : pyStrip p = p) :
    pyStripRight p = p ∧ p.dropWhile isPySpace = p := by
  obtain ⟨t, ht, -⟩ := pyStripRight_eq_append p
  have hlen1 : (pyStrip p).length ≤ (pyStripRight p).length := by
    unfold pyStrip
    exact length_dropWhile_le_self _ _
  have hlen2 : (pyStripRight p).length ≤ p.length := length_pyStripRight_le p
  rw [h] at hlen1
  have hleq : (pyStripRight p).length = p.length := Nat.le_antisymm hlen2 hlen1
  have htnil : t = [] := by
    have := congrArg List.length ht
    rw [List.length_append, hleq] at this
    have : t.length = 0 := by omega
    exact List.eq_nil_of_length_eq_zero this
  subst htnil
  have hsr : pyStripRight p = p := by simpa using ht
  refine ⟨hsr, ?_⟩
  have := h
  unfold pyStrip at this
  rw [hsr] at this
  exact this

theorem dropWhile_append_left (q : Char → Bool) (l₁ l₂ : List Char)
    (h1 : l₁ ≠ []) (h2 : l₁.dropWhile q = l₁) :
    (l₁ ++ l₂).dropWhile q = l₁ ++ l₂ := by
  cases l₁ with
  | nil => exact absurd rfl h1
  | cons c rest =>
    have hqc : q c = false := by
      cases hq : q c with
      | false => rfl
      | true =>
        rw [List.dropWhile_cons, if_pos hq] at h2
        have := congrArg List.length h2
        have hle := length_dropWhile_le_self q rest
        simp only [List.length_cons] at this
        omega
    rw [List.cons_append, List.dropWhile_cons, if_neg (by rw [hqc]; exact Bool.false_ne_true)]

theorem dropWhile_reverse_of_stripRight (p : List Char) (h : pyStripRight p = p) :
    p.reverse.dropWhile isPySpace = p.reverse := by
  have := congrArg List.reverse h
  unfold pyStripRight at this
  rw [List.reverse_reverse] at this
  exact this

theorem pyStrip_concat (j p : List Char)
    (hj : pyStrip j = j) (hjne : j ≠ [])
    (hp : pyStrip p = p) (hpne : p ≠ []) :
    pyStrip (j ++ parSep ++ p) = j ++ parSep ++ p := by
  obtain ⟨hjr, hjd⟩ := pyStrip_fix_parts j hj
  obtain ⟨hpr, hpd⟩ := pyStrip_fix_parts p hp
  have hsr : pyStripRight (j ++ parSep ++ p) = j ++ parSep ++ p := by
    unfold pyStripRight
    rw [List.reverse_append, dropWhile_append_left isPySpace p.reverse
      (j ++ parSep).reverse (reverse_ne_nil_of_ne_nil p hpne)
      (dropWhile_reverse_of_stripRight p hpr)]
    rw [← List.reverse_append]
    exact List.reverse_reverse _
  unfold pyStrip
  rw [hsr, List.append_assoc, dropWhile_append_left isPySpace j (parSep ++ p) hjne hjd,
    ← List.append_assoc]

theorem joinPar_glue (a b : List Char) (t : List (List Char)) :
    joinPar ((a ++ parSep ++ b) :: t) = joinPar (a :: b :: t) := by
  cases t with
  | nil => rfl
  | cons y t' => simp [joinPar, List.append_assoc]

theorem joinPar_cons_of_ne_nil (x : List Char) (t : List (List Char)) (h : t ≠ []) :
    joinPar (x :: t) = x ++ parSep ++ joinPar t := by
  cases t with
  | nil => exact absurd rfl h
  | cons y t' => rfl

theorem chunkLoop_join (maxc : Nat) (ps : List (List Char)) :
    ∀ j, pyStrip j = j → j ≠ [] →
    (∀ p ∈ ps, pyStrip p = p ∧ p ≠ []) →
    chunkLoop maxc ps (j ++ parSep) [] ≠ [] ∧
      joinPar (chunkLoop maxc ps (j ++ parSep) []) = joinPar (j :: ps) := by
  induction ps with
  | nil =>
    intro j hj hjne _
    have hps : pyStrip (j ++ parSep) = j := by rw [pyStrip_append_parSep, hj]
    simp only [chunkLoop, hps]
    rw [if_pos hjne]
    exact ⟨List.cons_ne_nil _ _, rfl⟩
  | cons p ps ih =>
    intro j hj hjne hall
    have hp := hall p (List.mem_cons_self p ps)
    have hrest : ∀ q ∈ ps, pyStrip q = q ∧ q ≠ [] :=
      fun q hq => hall q (List.mem_cons_of_mem p hq)
    simp only [chunkLoop]
    split
    · -- paragraph fits: cur grows to (j ++ parSep ++ p) ++ parSep
      have hj' : pyStrip (j ++ parSep ++ p) = j ++ parSep ++ p :=
        pyStrip_concat j p hj hjne hp.1 hp.2
      have hjne' : j ++ parSep ++ p ≠ [] := by
        intro hz
        exact hjne (List.append_eq_nil.mp (List.append_eq_nil.mp hz).1).1
      have := ih (j ++ parSep ++ p) hj' hjne' hrest
      exact ⟨this.1, by rw [this.2, joinPar_glue]⟩
    · -- paragraph does not fit: emit j, start fresh with p
      have hps : pyStrip (j ++ parSep) = j := by rw [pyStrip_append_parSep, hj]
      rw [hps, if_pos hjne, chunkLoop_acc]
      obtain ⟨hne, hjoin⟩ := ih p hp.1 hp.2 hrest
      constructor
      · simp
      · show joinPar (j :: chunkLoop maxc ps (p ++ parSep) []) = joinPar (j :: p :: ps)
        rw [joinPar_cons_of_ne_nil j _ hne, hjoin,
          joinPar_cons_of_ne_nil j (p :: ps) (List.cons_ne_nil p ps)]

/-- C7 (amended): when every paragraph produced by the splitter is
strip-fixed and nonempty, joining the returned chunks with the paragraph
separator `"\n\n"` reconstructs the input text exactly. The emitted chunks
are stripped, so the general claim fails on texts with leading/trailing
whitespace or empty paragraphs. -/
theorem c7_join_lossless (text : List Char) (maxc : Nat)
    (h : ∀ p ∈ pySplitPar text, pyStrip p = p ∧ p ≠ []) :
    joinPar (_chunk_text_by_paragraphs text maxc) = text := by
  unfold _chunk_text_by_paragraphs
  split
  · rfl
  · cases hx : pySplitPar text with
    | nil => exact absurd hx (pySplitPar_ne_nil text)
    | cons p0 ps =>
      have hp0 := h p0 (by rw [hx]; exact List.mem_cons_self p0 ps)
      have hrest : ∀ q ∈ ps, pyStrip q = q ∧ q ≠ [] :=
        fun q hq => h q (by rw [hx]; exact List.mem_cons_of_mem p0 hq)
      have hstep : chunkLoop maxc (p0 :: ps) [] [] =
          chunkLoop maxc ps (p0 ++ parSep) [] := by
        simp only [chunkLoop, List.nil_append]
        split
        · rfl
        · simp [pyStrip, pyStripRight]
      rw [hstep, (chunkLoop_join maxc ps p0 hp0.1 hp0.2 hrest).2, ← hx,
        pySplitPar_join]

/-- C6 witness: at text `"aaaaa\n\nbb"` with bound 3, the chunk `"aaaaa"`
is a single paragraph exceeding the bound. -/
theorem c6_witness :
    ("aaaaa".data ∈ _chunk_text_by_paragraphs "aaaaa\n\nbb".data 3) ∧
    ("aaaaa".data.length ≤ 3 ∨ occursIn parSep "aaaaa".data = false) :=
  ⟨by decide, c6_chunks_good "aaaaa\n\nbb".data 3 "aaaaa".data (by decide)⟩

/-- C7 counterexample: on `"ab\n"` with bound 1, the single chunk is the
stripped `"ab"`, so the join of the chunks does not reconstruct the input. -/
theorem c7_counterexample :
    joinPar (_chunk_text_by_paragraphs "ab\n".data 1) = "ab".data ∧
    "ab".data ≠ "ab\n".data :=
  ⟨by decide, by decide⟩

/-- C7 witness: `"aaaa\n\nbb"` splits into strip-fixed nonempty paragraphs,
and with bound 3 the chunks join back to the input. -/
theorem c7_witness :
    (∀ p ∈ pySplitPar "aaaa\n\nbb".data, pyStrip p = p ∧ p ≠ []) ∧
    joinPar (_chunk_text_by_paragraphs "aaaa\n\nbb".data 3) = "aaaa\n\nbb".data :=
  ⟨by decide, c7_join_lossless "aaaa\n\nbb".data 3 (by decide)⟩

